import Mathlib

/-!
Verification development for the Hotel Lead Builder enrichment pipeline.

The definitions below are a shallow embedding of the Python sources under
`backend/app/services/` (`cache.py`, `circuit_breaker.py`, `crawler.py`,
`discovery.py`).  Pure string manipulation is embedded directly over
`List Char` / `String`; network and HTML-parsing effects (the `requests`
library, BeautifulSoup, `tldextract`, DNS) are abstracted as explicit
environment records of deterministic functions, with `Option`/`none`
modelling a raised exception.  Python floats are modelled as `ℚ` (every
quantity the theorems touch is only compared against integer thresholds,
so rounding plays no role), Python ints as `ℤ`/`ℕ`, and Python's wall
clock `time.time()` as an explicit `now : ℚ` parameter.
-/

/-! ## Python string primitives -/

/-- Is `needle` a prefix of `hay`?  (Python `str.startswith`.) -/
def startsWithL (needle : List Char) : List Char → Bool
  | [] => needle.isEmpty
  | b :: bs =>
    match needle with
    | [] => true
    | a :: as' => a = b && startsWithL as' bs

/-- Is `needle` a contiguous substring of `hay`?  (Python `needle in hay`.) -/
def containsL (needle : List Char) : List Char → Bool
  | [] => needle.isEmpty
  | c :: t => startsWithL needle (c :: t) || containsL needle t

/-- Python `needle in hay` on strings. -/
def pyIn (needle hay : String) : Bool := containsL needle.data hay.data

/-- Python `s.startswith(pre)`. -/
def startsS (s pre : String) : Bool := startsWithL pre.data s.data

/-- Python `s.endswith(suf)`. -/
def endsS (s suf : String) : Bool := startsWithL suf.data.reverse s.data.reverse

/-- Python `\s` / `str.strip` whitespace class (ASCII part). -/
def pySpaceChar (c : Char) : Bool :=
  c = ' ' || c = '\t' || c = '\n' || c = '\r' || c = '\x0b' || c = '\x0c'

/-- The lowering table of Python `str.lower`, restricted to the characters
    the hotel pipeline manipulates: ASCII `A`–`Z`, and the Turkish
    uppercase letters that appear in the sources.  Python lowers `İ`
    (U+0130) to the two code points `i` + U+0307 (combining dot above);
    we reproduce that. -/
def lowerPairs : List (Char × List Char) :=
  [('A', ['a']), ('B', ['b']), ('C', ['c']), ('D', ['d']), ('E', ['e']),
   ('F', ['f']), ('G', ['g']), ('H', ['h']), ('I', ['i']), ('J', ['j']),
   ('K', ['k']), ('L', ['l']), ('M', ['m']), ('N', ['n']), ('O', ['o']),
   ('P', ['p']), ('Q', ['q']), ('R', ['r']), ('S', ['s']), ('T', ['t']),
   ('U', ['u']), ('V', ['v']), ('W', ['w']), ('X', ['x']), ('Y', ['y']),
   ('Z', ['z']),
   ('İ', ['i', '̇']), ('Ş', ['ş']), ('Ğ', ['ğ']), ('Ü', ['ü']),
   ('Ç', ['ç']), ('Ö', ['ö'])]

/-- One step of Python `str.lower` over `lowerPairs`. -/
def charLower (c : Char) : List Char :=
  match lowerPairs.find? (fun p => p.1 = c) with
  | some p => p.2
  | none => [c]

/-- `List.flatMap charLower`, written out structurally. -/
def lowerL : List Char → List Char
  | [] => []
  | c :: t => charLower c ++ lowerL t

/-- Python `str.lower` (for the character set used by the pipeline). -/
def pyLower (s : String) : String := String.mk (lowerL s.data)

/-- One step of Python `str.upper` for the same character set. -/
def charUpper (c : Char) : Char :=
  if 'a' ≤ c ∧ c ≤ 'z' then Char.ofNat (c.toNat - 32)
  else if c = 'ş' then 'Ş'
  else if c = 'ı' then 'I'
  else if c = 'ğ' then 'Ğ'
  else if c = 'ü' then 'Ü'
  else if c = 'ç' then 'Ç'
  else if c = 'ö' then 'Ö'
  else c

/-- Python `str.upper` (for the character set used by the pipeline). -/
def pyUpper (s : String) : String := String.mk (s.data.map charUpper)

/-- Python `str.capitalize`: first character title-cased, rest lowered. -/
def pyCapitalize (s : String) : String :=
  match s.data with
  | [] => ""
  | c :: t => String.mk (charUpper c :: lowerL t)

/-- Python `str.strip()`. -/
def pyStrip (s : String) : String :=
  String.mk (((s.data.dropWhile pySpaceChar).reverse.dropWhile pySpaceChar).reverse)

/-- Worker for whitespace-run splitting (Python `re.split(r"\s+", s)`
    followed by dropping empty pieces). -/
def splitWsGo (cur : List Char) : List Char → List (List Char)
  | [] => [cur.reverse]
  | c :: t =>
    if pySpaceChar c then cur.reverse :: splitWsGo [] t
    else splitWsGo (c :: cur) t

/-- `[t for t in re.split(r"\s+", s) if t]`. -/
def splitTokens (s : String) : List String :=
  ((splitWsGo [] s.data).map String.mk).filter (fun t => t ≠ "")

/-- Worker for Python `str.split(d)` with a one-character separator. -/
def splitCGo (d : Char) (cur : List Char) : List Char → List (List Char)
  | [] => [cur.reverse]
  | c :: t =>
    if c = d then cur.reverse :: splitCGo d [] t
    else splitCGo d (c :: cur) t

/-- Python `s.split(d)` for a one-character separator. -/
def pySplitOn (d : Char) (s : String) : List String :=
  (splitCGo d [] s.data).map String.mk

/-- `l[i]` with Python-style indexing where the index is known to exist;
    out-of-range yields `""` (never reached at the call sites). -/
def pyIndex (l : List String) (i : Nat) : String := l.getD i ""

/-- Python `s.split(d)[0]`. -/
def cutAt (d : Char) (s : String) : String :=
  String.mk (s.data.takeWhile (fun c => c ≠ d))

/-- Worker for Python `str.replace(old, new)` (all occurrences, left to
    right).  `k` counts characters still to skip because they belonged to
    a match that was already rewritten, keeping the recursion structural. -/
def replGo (old new : List Char) (k : Nat) : List Char → List Char
  | [] => []
  | c :: t =>
    match k with
    | j + 1 => replGo old new j t
    | 0 =>
      if startsWithL old (c :: t) && !old.isEmpty then
        new ++ replGo old new (old.length - 1) t
      else c :: replGo old new 0 t

/-- Python `s.replace(old, new)` for non-empty `old`. -/
def pyReplace (s old new : String) : String :=
  String.mk (replGo old.data new.data 0 s.data)

/-- Python `str.isdigit` (ASCII digits). -/
def pyIsDigit (s : String) : Bool := s.data ≠ [] && s.data.all Char.isDigit

/-- Order-preserving de-duplication (the `seen`-set idiom in the sources). -/
def dedupGo (seen : List String) : List String → List String
  | [] => []
  | x :: t => if seen.contains x then dedupGo seen t else x :: dedupGo (x :: seen) t

/-- `[v for v in l if not (v in seen or seen.add(v))]`. -/
def dedupL (l : List String) : List String := dedupGo [] l

/-- Stable insertion (descending by length) used to model Python
    `list.sort(key=len, reverse=True)`, which is stable. -/
def insLenDesc (x : String) : List String → List String
  | [] => [x]
  | y :: ys => if x.data.length ≥ y.data.length then x :: y :: ys else y :: insLenDesc x ys

/-- Python `l.sort(key=len, reverse=True)` (stable). -/
def sortLenDesc (l : List String) : List String := l.foldr insLenDesc []

/-- Stable insertion (descending by score) for candidate lists, modelling
    Python `candidates.sort(key=lambda x: x['score'], reverse=True)`. -/
def insScoreDesc (x : String × ℚ) : List (String × ℚ) → List (String × ℚ)
  | [] => [x]
  | y :: ys => if x.2 ≥ y.2 then x :: y :: ys else y :: insScoreDesc x ys

/-- Python stable sort of candidates by descending score. -/
def sortScoreDesc (l : List (String × ℚ)) : List (String × ℚ) := l.foldr insScoreDesc []

/-- `" ".join(l)`-style joining with a separator. -/
def joinSep (sep : String) : List String → String
  | [] => ""
  | [x] => x
  | x :: xs => x ++ sep ++ joinSep sep xs

/-! ## URL parsing (`urllib.parse.urlparse(...).netloc`)

CPython's `urlsplit` never includes a `#` fragment in the netloc, detects a
scheme only when the text before the first `:` starts with an ASCII letter
and consists of scheme characters, and reads the netloc after a leading
`//` up to the first `/`, `?` or `#`.  It raises `ValueError` ("Invalid
IPv6 URL") when the netloc contains `[` without `]` or vice versa. -/

/-- Characters CPython accepts inside a URL scheme. -/
def schemeChar (c : Char) : Bool := c.isAlpha || c.isDigit || c = '+' || c = '-' || c = '.'

/-- Drop a leading `scheme:` if present (CPython `urlsplit` scheme rule). -/
def dropScheme (l : List Char) : List Char :=
  let pre := l.takeWhile (fun c => c ≠ ':')
  if decide (pre.length < l.length) &&
      (match pre with
       | [] => false
       | c :: _ => c.isAlpha) && pre.all schemeChar then
    l.drop (pre.length + 1)
  else l

/-- The characters of `urlparse(url).netloc`. -/
def netlocChars (url : String) : List Char :=
  let l := url.data.takeWhile (fun c => c ≠ '#')
  let l := dropScheme l
  if startsWithL ['/', '/'] l then
    (l.drop 2).takeWhile (fun c => c ≠ '/' ∧ c ≠ '?' ∧ c ≠ '#')
  else []

/-- `urlparse(url).netloc`, with the `ValueError` branch ignored (total
    variant used where the Python call sits inside a `try`). -/
def urlNetloc (url : String) : String := String.mk (netlocChars url)

/-- `urlparse(url).netloc` with CPython's "Invalid IPv6 URL" `ValueError`
    modelled as `none` (bracket-mismatch check). -/
def urlNetlocE (url : String) : Option String :=
  let n := netlocChars url
  if (n.contains '[' ∧ ¬ n.contains ']') ∨ (n.contains ']' ∧ ¬ n.contains '[') then none
  else some (String.mk n)

/-! ## Cache store (`cache.py`), validation namespace

`validation_cache` rows are `(url.lower(), is_hotel, confidence, indicators,
checked_at)`; we store the verdict record and the write time.  JSON and
int/bool round-trips in the SQLite layer are identities on the payload. -/

/-- `{'is_hotel': bool, 'confidence': 0-100, 'indicators': [list]}`. -/
structure Verdict where
  is_hotel : Bool
  confidence : ℚ
  indicators : List String
deriving DecidableEq, Repr

/-- The validation-cache table: key (already lowered) to payload and
    `checked_at` write time. -/
def VState := String → Option (Verdict × ℚ)

/-- The empty cache. -/
def emptyVState : VState := fun _ => none

/-- `CACHE_TTL_SECONDS = 7 * 24 * 60 * 60` (cache.py). -/
def CACHE_TTL_SECONDS : ℚ := 7 * 24 * 60 * 60

/-- `is_cache_valid(checked_at, ttl)`: `(time.time() - checked_at) < ttl`. -/
def is_cache_valid (now checked_at ttl : ℚ) : Bool := decide (now - checked_at < ttl)

/-- `get_validation_cache(url)`: row lookup keyed by `url.lower()`, returning
    the payload only while `is_cache_valid` holds, else a miss. -/
def get_validation_cache (st : VState) (now : ℚ) (url : String) : Option Verdict :=
  match st (pyLower url) with
  | some (v, t) => if is_cache_valid now t CACHE_TTL_SECONDS then some v else none
  | none => none

/-- `set_validation_cache(url, is_hotel, confidence, indicators)`: upsert
    keyed by `url.lower()` with `checked_at = time.time()`. -/
def set_validation_cache (st : VState) (now : ℚ) (url : String) (v : Verdict) : VState :=
  fun k => if k = pyLower url then some (v, now) else st k

/-! ## Circuit breaker (`circuit_breaker.py`) -/

/-- `CircuitState` enum. -/
inductive CBState where
  | CLOSED
  | OPEN
  | HALF_OPEN
deriving DecidableEq, Repr

/-- `CircuitBreakerConfig`. -/
structure CircuitBreakerConfig where
  failure_threshold : Nat
  recovery_timeout : ℚ
  success_threshold : Nat
deriving DecidableEq, Repr

/-- The mutable fields of a `CircuitBreaker` instance. -/
structure CircuitBreaker where
  state : CBState
  failure_count : Nat
  success_count : Nat
  last_failure_time : ℚ
deriving DecidableEq, Repr

/-- `CircuitBreaker._should_allow_request`, with `time.time()` passed in as
    `now`; returns the decision and the (possibly transitioned) breaker. -/
def _should_allow_request (cfg : CircuitBreakerConfig) (now : ℚ)
    (cb : CircuitBreaker) : Bool × CircuitBreaker :=
  match cb.state with
  | .CLOSED => (true, cb)
  | .OPEN =>
    if now - cb.last_failure_time ≥ cfg.recovery_timeout then
      (true, { cb with state := .HALF_OPEN, success_count := 0 })
    else (false, cb)
  | .HALF_OPEN => (true, cb)

/-- `CircuitBreaker.record_failure`. -/
def record_failure (cfg : CircuitBreakerConfig) (now : ℚ)
    (cb : CircuitBreaker) : CircuitBreaker :=
  let cb := { cb with failure_count := cb.failure_count + 1, last_failure_time := now }
  match cb.state with
  | .HALF_OPEN => { cb with state := .OPEN }
  | .CLOSED =>
    if cb.failure_count ≥ cfg.failure_threshold then { cb with state := .OPEN } else cb
  | .OPEN => cb

/-- `CircuitBreaker.record_success`. -/
def record_success (cfg : CircuitBreakerConfig) (cb : CircuitBreaker) : CircuitBreaker :=
  let cb := { cb with failure_count := 0 }
  match cb.state with
  | .HALF_OPEN =>
    let cb := { cb with success_count := cb.success_count + 1 }
    if cb.success_count ≥ cfg.success_threshold then { cb with state := .CLOSED } else cb
  | _ => cb

/-! ## Email validation and scoring (`crawler.py`) -/

/-- `PRIORITY_KEYWORDS` (crawler.py). -/
def PRIORITY_KEYWORDS : List String :=
  ["contact", "iletisim", "about", "hakkimizda", "info", "ulasim",
   "bize-ulasin", "bizeulasin", "communication"]

/-- The regex `^[0-9]+@` under `re.match`: one or more leading digits
    immediately followed by `@`. -/
def numericLocalStart (s : String) : Bool :=
  let p := s.data.span Char.isDigit
  p.1 ≠ [] && (match p.2 with
               | c :: _ => c = '@'
               | [] => false)

/-- `is_valid_email` (crawler.py, lines 62-84).  The `INVALID_EMAIL_PATTERNS`
    regexes are anchored `re.match` patterns of the forms `.*suf$` and
    `^pre`, embedded as suffix/prefix tests (exact for newline-free
    strings, which is all the extraction regexes can produce). -/
def is_valid_email (email0 : String) : Bool :=
  let email := pyStrip (pyLower email0)
  if endsS email ".png" || endsS email ".jpg" || endsS email ".gif" ||
     endsS email ".jpeg" || endsS email ".js" || endsS email ".css" ||
     endsS email "@example.com" || endsS email "@test.com" ||
     startsS email "noreply@" || startsS email "no-reply@" ||
     endsS email "@sentry.io" || endsS email "@google.com" ||
     numericLocalStart email then false
  else if email.data.length < 5 || email.data.length > 254 then false
  else if email.data.countP (fun c => c = '@') ≠ 1 then false
  else if ¬ pyIn "." (pyIndex (pySplitOn '@' email) 1) then false
  else true

/-- `preferred_prefixes` (crawler.py `score_email`). -/
def PREFERRED_LOCALS : List String :=
  ["info", "contact", "rezervasyon", "reservation", "booking", "sales",
   "satis", "reception", "resepsiyon"]

/-- `generic_domains` (crawler.py `score_email`). -/
def GENERIC_DOMAINS : List String :=
  ["gmail.com", "yahoo.com", "hotmail.com", "outlook.com", "yandex.com"]

/-- `score_email(email, domain)` (crawler.py, lines 177-208). -/
def score_email (email domain : String) : ℤ :=
  let email_lower := pyLower email
  let email_domain := if pyIn "@" email then pyIndex (pySplitOn '@' email) 1 else ""
  let website_domain := pyReplace domain "www." ""
  let s1 : ℤ :=
    if email_domain = website_domain then 50
    else if pyIn website_domain email_domain || pyIn email_domain website_domain then 30
    else 0
  let email_prefix := pyIndex (pySplitOn '@' email_lower) 0
  let s2 : ℤ :=
    if PREFERRED_LOCALS.contains email_prefix then 40
    else if PREFERRED_LOCALS.any (fun p => pyIn p email_prefix) then 20
    else 0
  let s3 : ℤ := if GENERIC_DOMAINS.contains email_domain then -20 else 0
  s1 + s2 + s3

/-! ## Content validator (`discovery.py`, `validate_hotel_content`)

The page fetch (`requests.get`) is the exception source inside the
function's `try` block; it is modelled as `fetch : String → Option
FetchResp` with `none` for a raised exception.  BeautifulSoup's `<title>`
extraction is a pure function of the body and is abstracted as `titleOf`.
Everything else (keyword search, city variants, phone regexes) is embedded
concretely. -/

/-- A `requests` response: status code and body text. -/
structure FetchResp where
  status : Nat
  text : String
deriving DecidableEq, Repr

/-- The deterministic external world seen by `validate_hotel_content`. -/
structure WebEnv where
  fetch : String → Option FetchResp
  titleOf : String → Option String

/-- `domain_keywords` (validate_hotel_content). -/
def DOMAIN_KEYWORDS : List String :=
  ["hotel", "otel", "resort", "apart", "pansiyon", "villa", "lodge", "inn", "motel"]

/-- `brand_keywords` (validate_hotel_content). -/
def BRAND_KEYWORDS : List String :=
  ["hyatt", "hilton", "marriott", "radisson", "sheraton",
   "accor", "ibis", "novotel", "mercure", "sofitel",
   "ramada", "wyndham", "holiday inn", "crowne plaza",
   "intercontinental", "doubletree", "hampton", "embassy"]

/-- `HOTEL_KEYWORDS['english']` (discovery.py). -/
def HOTEL_KEYWORDS_EN : List String :=
  ["hotel", "resort", "motel", "guest house", "lodge", "inn", "villa", "room",
   "accommodation", "booking", "reserve", "check-in", "check-out"]

/-- `HOTEL_KEYWORDS['turkish']` (discovery.py). -/
def HOTEL_KEYWORDS_TR : List String :=
  ["otel", "resort", "pansiyon", "konuk evi", "konak", "yatakhane", "apart",
   "kamp", "oda", "konaklama", "rezervasyon", "giriş", "çıkış", "tur", "turizm"]

/-- `HOTEL_KEYWORDS['location']` (discovery.py; unused by the validator). -/
def HOTEL_KEYWORDS_LOC : List String :=
  ["türkiye", "turkey", "telefon", "phone", "+90", "adres", "address", "konum", "location"]

/-- The domain-analysis step of the validator (Priority 1): points and
    indicator lines gained from `urlparse(url).netloc.lower()`. -/
def validateDomainScore (url : String) : ℚ × List String :=
  let domain := pyLower (urlNetloc url)
  if DOMAIN_KEYWORDS.any (fun k => pyIn k domain) then
    (40, ["✓ Hotel keyword in domain: " ++ domain])
  else if BRAND_KEYWORDS.any (fun k => pyIn k domain) then
    (35, ["✓ Hotel brand in domain: " ++ domain])
  else (0, [])

/-- `[\s\-]` in the Turkish phone regexes. -/
def sepWS (c : Char) : Bool := pySpaceChar c || c = '-'

/-- Consume one optional character matching `p` (regex `X?`).  All the
    optional atoms in the phone patterns are disjoint from what follows
    them, so greedy matching without backtracking is exact. -/
def optCh (p : Char → Bool) (l : List Char) : List Char :=
  match l with
  | c :: t => if p c then t else c :: t
  | [] => []

/-- Consume exactly `n` ASCII digits (regex `\d{n}`). -/
def digitsN : Nat → List Char → Option (List Char)
  | 0, l => some l
  | _ + 1, [] => none
  | n + 1, c :: t => if c.isDigit then digitsN n t else none

/-- Consume one literal character. -/
def litCh (ch : Char) (l : List Char) : Option (List Char) :=
  match l with
  | c :: t => if c = ch then some t else none
  | [] => none

/-- `\+90[\s\-]?\(?\d{3}\)?[\s\-]?\d{3}[\s\-]?\d{2}[\s\-]?\d{2}` at a position. -/
def phone1At (l : List Char) : Bool :=
  (((((litCh '+' l).bind (litCh '9')).bind (litCh '0')).map (optCh sepWS)).map
      (optCh (fun c => c = '(')) |>.bind (digitsN 3) |>.map (optCh (fun c => c = ')'))
    |>.map (optCh sepWS) |>.bind (digitsN 3) |>.map (optCh sepWS) |>.bind (digitsN 2)
    |>.map (optCh sepWS) |>.bind (digitsN 2)).isSome

/-- `0[2-5]\d{2}[\s\-]?\d{3}[\s\-]?\d{2}[\s\-]?\d{2}` at a position. -/
def phone2At (l : List Char) : Bool :=
  ((litCh '0' l).bind (fun l =>
      match l with
      | c :: t => if '2' ≤ c ∧ c ≤ '5' then some t else none
      | [] => none)
    |>.bind (digitsN 2) |>.map (optCh sepWS) |>.bind (digitsN 3)
    |>.map (optCh sepWS) |>.bind (digitsN 2) |>.map (optCh sepWS)
    |>.bind (digitsN 2)).isSome

/-- `444[\s\-]?\d{1}[\s\-]?\d{3}` at a position. -/
def phone3At (l : List Char) : Bool :=
  ((((litCh '4' l).bind (litCh '4')).bind (litCh '4')).map (optCh sepWS)
    |>.bind (digitsN 1) |>.map (optCh sepWS) |>.bind (digitsN 3)).isSome

/-- `re.search`: try a position matcher at every suffix. -/
def anyAt (m : List Char → Bool) : List Char → Bool
  | [] => m []
  | c :: t => m (c :: t) || anyAt m t

/-- `any(re.search(pattern, content) for pattern in phone_patterns)`. -/
def hasPhone (content : String) : Bool :=
  anyAt phone1At content.data || anyAt phone2At content.data || anyAt phone3At content.data

/-- `sum(1 for kw in kws if kw in content)`. -/
def countKw (kws : List String) (content : String) : Nat :=
  (kws.filter (fun kw => pyIn kw content)).length

/-- The city check (Priority 2 of the validator, lines 133-141): the city
    is non-empty and one of its lowercase / capitalized / uppercase
    variants occurs in the lowered body. -/
def vcCity (city content : String) : Bool :=
  city ≠ "" && ([pyLower city, pyCapitalize city, pyUpper city].any (fun v => pyIn v content))

/-- City points: 40 on a match. -/
def vcCityScore (city content : String) : ℚ := if vcCity city content then 40 else 0

/-- `title.get_text().lower() if title else ""` (lines 157-159), with the
    BeautifulSoup title extraction abstracted in the environment. -/
def vcTitleText (env : WebEnv) (body : String) : String :=
  match env.titleOf body with
  | some t => pyLower t
  | none => ""

/-- The title check of the HTML fallback (lines 158-162). -/
def vcTitleOk (title_text : String) : Bool :=
  title_text ≠ "" &&
    (pyIn "hotel" title_text || pyIn "otel" title_text || pyIn "resort" title_text)

/-- Title points: 20 on a hotel keyword in the `<title>`. -/
def vcTitleScore (title_text : String) : ℚ := if vcTitleOk title_text then 20 else 0

/-- Keyword points (lines 164-173): 20 for two English hits, else 20 for
    two Turkish hits. -/
def vcKwScore (content : String) : ℚ :=
  if countKw HOTEL_KEYWORDS_EN content ≥ 2 then 20
  else if countKw HOTEL_KEYWORDS_TR content ≥ 2 then 20 else 0

/-- Phone points (lines 176-185): 15 on any Turkish phone pattern. -/
def vcPhoneScore (content : String) : ℚ := if hasPhone content then 15 else 0

/-- The body of `validate_hotel_content` after a cache miss.  Branches that
    call `set_validation_cache` mirror the source; the exception branch
    with domain score < 40 is the single uncached verdict. -/
def validateCompute (env : WebEnv) (now : ℚ) (st : VState)
    (url hotel_name city : String) : Verdict × VState :=
  let ds := validateDomainScore url
  let dscore := ds.1
  let ind0 := ds.2
  match env.fetch url with
  | none =>
    if dscore ≥ 40 then
      let r : Verdict := ⟨true, min (dscore + 10) 100,
        ind0 ++ ["⚠ Content error but domain is hotel"]⟩
      (r, set_validation_cache st now url r)
    else (⟨false, 0, ["✗ Error: Exception"]⟩, st)
  | some resp =>
    if resp.status ≠ 200 then
      if dscore ≥ 40 then
        let r : Verdict := ⟨true, 80, ind0 ++ ["⚠ HTTP non-200 but domain is hotel"]⟩
        (r, set_validation_cache st now url r)
      else
        let r : Verdict := ⟨false, 0, ["✗ HTTP not 200"]⟩
        (r, set_validation_cache st now url r)
    else
      let content := pyLower resp.text
      let ind1 := ind0 ++ (if vcCity city content then ["✓ City matched: " ++ city] else [])
      let s1 := dscore + vcCityScore city content
      if s1 ≥ 70 then
        let r : Verdict := ⟨true, min (s1 + 20) 100,
          ind1 ++ ["✓ FAST PASS: Domain + City = " ++ toString s1 ++ " pts"]⟩
        (r, set_validation_cache st now url r)
      else
        let title_text := vcTitleText env resp.text
        let ind2 := ind1 ++ (if vcTitleOk title_text then ["✓ Hotel keyword in title"] else [])
        let en := countKw HOTEL_KEYWORDS_EN content
        let tr := countKw HOTEL_KEYWORDS_TR content
        let ind3 := ind2 ++
          (if en ≥ 2 then ["✓ English keywords: " ++ toString en]
           else if tr ≥ 2 then ["✓ Turkish keywords: " ++ toString tr] else [])
        let ind4 := ind3 ++ (if hasPhone content then ["✓ Phone number found"] else [])
        let s2 := s1 + vcTitleScore title_text + vcKwScore content + vcPhoneScore content
        if s2 ≥ 50 then
          let r : Verdict := ⟨true, min s2 100, ind4⟩
          (r, set_validation_cache st now url r)
        else
          let r : Verdict := ⟨false, s2, ind4 ++ ["✗ Score too low"]⟩
          (r, set_validation_cache st now url r)

/-- `validate_hotel_content(url, hotel_name, city)` (discovery.py, lines
    57-207): cache first, else compute and (except on a fetch exception
    with domain score < 40) cache the verdict. -/
def validate_hotel_content (env : WebEnv) (now : ℚ) (st : VState)
    (url hotel_name city : String) : Verdict × VState :=
  match get_validation_cache st now url with
  | some v => (v, st)
  | none => validateCompute env now st url hotel_name city

/-! ## Email crawler (`crawler.py`, `crawl_for_email`)

The per-page `requests.get` is modelled as `fetchPage` (with `none` for a
raised, caught exception); BeautifulSoup anchor extraction, `urljoin` and
the combined email extraction (`extract_emails_from_html` plus the raw
re-scan `extract_emails_from_text`) are abstracted as pure functions of
the body — every address they emit is re-lowered, re-stripped and
re-checked with `is_valid_email` by the crawler itself before being
stored, exactly as in the source. -/

/-- A crawler page response: `Content-Type` header and body. -/
structure PageResp where
  contentType : String
  text : String
deriving DecidableEq, Repr

/-- The deterministic external world seen by `crawl_for_email`. -/
structure CrawlEnv where
  fetchPage : String → Option PageResp
  anchors : String → List String
  urljoin : String → String → String
  extractEmails : String → List String

/-- `found_emails : dict[email, score]`, as an insertion-ordered list. -/
abbrev Found := List (String × ℤ)

/-- `skip_extensions` check: `any(url.lower().endswith(ext) ...)`. -/
def skipExt (url : String) : Bool :=
  [".pdf", ".jpg", ".png", ".gif", ".css", ".js", ".zip", ".doc"].any
    (fun e => endsS (pyLower url) e)

/-- `'text/html' in content_type.lower() or 'application/xhtml' in ...`. -/
def htmlContentType (ct : String) : Bool :=
  pyIn "text/html" (pyLower ct) || pyIn "application/xhtml" (pyLower ct)

/-- Dictionary update `found_emails[email] = score` under the guard
    `email not in found_emails or found_emails[email] < score`; an
    existing key keeps its insertion position. -/
def foundUpdate (f : Found) (e : String) (s : ℤ) : Found :=
  match f with
  | [] => [(e, s)]
  | (e', s') :: rest =>
    if e' = e then (if s' < s then (e', s) :: rest else (e', s') :: rest)
    else (e', s') :: foundUpdate rest e s

/-- `max(found_emails.keys(), key=lambda e: found_emails[e])` together with
    its score: the leftmost entry of maximal score (Python `max` keeps the
    first maximum in insertion order). -/
def bestOf (f : Found) : Option (String × ℤ) :=
  f.foldl (fun b p =>
    match b with
    | none => some p
    | some q => if p.2 > q.2 then some p else some q) none

/-- The per-page email scoring loop (crawler.py, lines 265-275). -/
def pageFound (urlCur domain : String) (emails : List String) (f : Found) : Found :=
  emails.foldl (fun acc e0 =>
    let e := pyStrip (pyLower e0)
    if is_valid_email e then
      let s := score_email e domain
      let s := if PRIORITY_KEYWORDS.any (fun k => pyIn k (pyLower urlCur)) then s + 15 else s
      foundUpdate acc e s
    else acc) f

/-- The internal-link queueing loop (crawler.py, lines 278-303): same-host
    anchors are fragment-stripped and pushed to the front (priority
    keyword in the URL) or the back of the queue. -/
def enqueueLinks (env : CrawlEnv) (domain urlCur : String) (visited : List String)
    (links : List String) (q : List String) : List String :=
  links.foldl (fun q href =>
    if startsS href "mailto:" || startsS href "javascript:" then q
    else
      let full := env.urljoin urlCur href
      if urlNetloc full = domain ∧ ¬ visited.contains full then
        let fu := cutAt '#' full
        if visited.contains fu then q
        else if PRIORITY_KEYWORDS.any (fun k => pyIn k (pyLower fu)) then fu :: q
        else q ++ [fu]
      else q) q

/-- The `while queue and pages_crawled < max_pages` loop of
    `crawl_for_email`; `b` is the remaining page budget
    (`max_pages - pages_crawled`).  Returns the crawl result together
    with the final queue, visited set and found map. -/
def crawlAux (env : CrawlEnv) (domain : String) :
    Nat → List String → List String → Found →
    Option String × List String × List String × Found
  | _, [], visited, f => ((bestOf f).map Prod.fst, [], visited, f)
  | 0, u :: rest, visited, f => ((bestOf f).map Prod.fst, u :: rest, visited, f)
  | b + 1, u :: rest, visited, f =>
    if visited.contains u then crawlAux env domain (b + 1) rest visited f
    else if skipExt u then crawlAux env domain (b + 1) rest visited f
    else
      match env.fetchPage u with
      | none => crawlAux env domain (b + 1) rest visited f
      | some resp =>
        if ¬ htmlContentType resp.contentType then crawlAux env domain (b + 1) rest visited f
        else
          let visited' := u :: visited
          let f' := pageFound u domain (env.extractEmails resp.text) f
          let q' := enqueueLinks env domain u visited' (env.anchors resp.text) rest
          match bestOf f' with
          | some p =>
            if p.2 ≥ 70 then (some p.1, q', visited', f')
            else crawlAux env domain b q' visited' f'
          | none => crawlAux env domain b q' visited' f'
termination_by b q _ _ => (b, q.length)

/-- `crawl_for_email(start_url, max_pages)` (crawler.py, lines 210-324).
    The one statement outside any `try` that can raise for a hostile
    argument is `urlparse(start_url)` ("Invalid IPv6 URL"); a propagated
    exception is modelled as `Except.error ()`. -/
def crawl_for_email (env : CrawlEnv) (start_url : String) (max_pages : Nat) :
    Except Unit (Option String × List String × List String × Found) :=
  match urlNetlocE start_url with
  | none => .error ()
  | some domain => .ok (crawlAux env domain max_pages [start_url] [] [])

/-! ## Discovery engine (`discovery.py`)

The name-normalization / domain-variant pipeline of `find_website`
(lines 456-657) is pure string manipulation and is embedded concretely.
`tldextract` (which consults the public-suffix list), DNS filtering,
`requests.head`, the DuckDuckGo search, BeautifulSoup link parsing and
the `parse_qs` redirect decoding are abstracted in `DiscEnv`. -/

/-- Find `\(...\)` / `\[...\]` closing bracket: the shortest non-greedy
    match cannot cross a newline (regex `.` does not match `\n`). -/
def takeToClose (cl : Char) : List Char → Option (List Char)
  | [] => none
  | c :: t => if c = cl then some t else if c = '\n' then none else takeToClose cl t

/-- Worker for `re.sub(r"\(.*?\)|\[.*?\]", "", s)`: left-to-right scan,
    shortest close per opener, unclosed openers kept.  The `Nat` fuel
    always bounds the list length, keeping the recursion structural. -/
def remBrGo : Nat → List Char → List Char
  | _, [] => []
  | 0, l => l
  | f + 1, c :: t =>
    if c = '(' then
      match takeToClose ')' t with
      | some rest => remBrGo f rest
      | none => c :: remBrGo f t
    else if c = '[' then
      match takeToClose ']' t with
      | some rest => remBrGo f rest
      | none => c :: remBrGo f t
    else c :: remBrGo f t

/-- `re.sub(r"\(.*?\)|\[.*?\]", "", s)`. -/
def removeBracketed (s : String) : String := String.mk (remBrGo s.data.length s.data)

/-- `re.sub(r"\s+", " ", s)`: collapse whitespace runs to single spaces.
    `prevSpace` records whether the previous character was whitespace. -/
def collapseWsGo (prevSpace : Bool) : List Char → List Char
  | [] => []
  | c :: t =>
    if pySpaceChar c then
      if prevSpace then collapseWsGo true t else ' ' :: collapseWsGo true t
    else c :: collapseWsGo false t

/-- `re.sub(r"\s+", " ", s)` on strings. -/
def collapseWs (s : String) : String := String.mk (collapseWsGo false s.data)

/-- `_normalize_name_for_search` (discovery.py, lines 210-218). -/
def _normalize_name_for_search (name : String) : String :=
  let base := if pyIn "-" name then pyStrip (pyIndex (pySplitOn '-' name) 0) else name
  let base := removeBracketed base
  pyStrip (collapseWs base)

/-- `re.sub(r'^\d+\s+', '', s)`: strip a leading run of digits plus the
    whitespace after it, if both are present. -/
def stripNumPre (s : String) : String :=
  let p := s.data.span Char.isDigit
  if (!p.1.isEmpty) && (match p.2 with
                        | c :: _ => pySpaceChar c
                        | [] => false) then
    String.mk (p.2.dropWhile pySpaceChar)
  else s

/-- The character class `[a-zA-Z0-9\sşğıüçöŞĞİÜÇÖ-]` kept by the
    special-character cleanup regex. -/
def keepNameChar (c : Char) : Bool :=
  ('a' ≤ c ∧ c ≤ 'z') || ('A' ≤ c ∧ c ≤ 'Z') || c.isDigit || pySpaceChar c ||
    ['ş', 'ğ', 'ı', 'ü', 'ç', 'ö', 'Ş', 'Ğ', 'İ', 'Ü', 'Ç', 'Ö'].contains c || c = '-'

/-- The uppercase-Turkish-to-lowercase-ASCII replacements
    `'İ'→'i', 'Ş'→'s', 'Ğ'→'g', 'Ü'→'u', 'Ç'→'c', 'Ö'→'o'`. -/
def foldTrUpToLo (c : Char) : Char :=
  if c = 'İ' then 'i' else if c = 'Ş' then 's' else if c = 'Ğ' then 'g'
  else if c = 'Ü' then 'u' else if c = 'Ç' then 'c' else if c = 'Ö' then 'o' else c

/-- The uppercase-Turkish-to-uppercase-ASCII replacements
    `'İ'→'I', 'Ş'→'S', 'Ğ'→'G', 'Ü'→'U', 'Ç'→'C', 'Ö'→'O'`. -/
def foldTrUpToUp (c : Char) : Char :=
  if c = 'İ' then 'I' else if c = 'Ş' then 'S' else if c = 'Ğ' then 'G'
  else if c = 'Ü' then 'U' else if c = 'Ç' then 'C' else if c = 'Ö' then 'O' else c

/-- The lowercase-Turkish-to-ASCII replacements
    `'ş'→'s', 'ı'→'i', 'ğ'→'g', 'ü'→'u', 'ç'→'c', 'ö'→'o'`. -/
def foldTrLoChar (c : Char) : Char :=
  if c = 'ş' then 's' else if c = 'ı' then 'i' else if c = 'ğ' then 'g'
  else if c = 'ü' then 'u' else if c = 'ç' then 'c' else if c = 'ö' then 'o' else c

/-- Apply a character map to a string. -/
def mapStr (f : Char → Char) (s : String) : String := String.mk (s.data.map f)

/-- `clean_turkish(token)` (find_website, line 526-527): the six lowercase
    replacements followed by the two-code-point replace `'i̇' → 'i'`. -/
def clean_turkish (t : String) : String :=
  pyReplace (mapStr foldTrLoChar t) "i̇" "i"

/-- `type_suffixes` (find_website, lines 499-505), in source order. -/
def TYPE_SUFFIXES : List String :=
  ["pansiyon", "pansiyonu",
   "otel", "oteli", "oteller",
   "apart", "apart-otel", "apart otel",
   "spa", "tesisi", "hotel", "hotels",
   "motel", "pension", "guest house", "hostel"]

/-- `stopwords` of the variant pipeline (find_website, line 529). -/
def FW_STOPWORDS : List String := ["special", "class", "boutique", "luxury", "deluxe"]

/-- `type_words` of the variant pipeline (find_website, lines 530-536). -/
def FW_TYPE_WORDS : List String :=
  ["hotel", "otel", "resort", "spa", "apart", "pansiyon", "motel",
   "house", "guest", "inn", "lodge",
   "oteli", "oteller", "pansiyonu", "resorts", "kabin", "kabins",
   "vila", "villalar", "konaklama"]

/-- `[l.take i for i in 1..l.length]` — the progressive prefix lists. -/
def prefixesOf (l : List String) : List (List String) :=
  (List.range l.length).map (fun i => l.take (i + 1))

/-- `s[:-n]` for `n ≤ len(s)`. -/
def dropLastChars (s : String) (n : Nat) : String :=
  String.mk (s.data.take (s.data.length - n))

/-- The orderings tried for one progressive token list (find_website,
    lines 589-604): as-is when a type word is present, otherwise
    hotel-first, hotel-last, and (for two or more tokens) hotel-middle. -/
def variantsToTry (tl : List String) : List (List String) :=
  if tl.any (fun t => FW_TYPE_WORDS.contains (clean_turkish t)) then [tl]
  else
    ["hotel" :: tl, tl ++ ["hotel"]] ++
      (if tl.length ≥ 2 then [tl.headD "" :: "hotel" :: tl.tail] else [])

/-- Join an ordering and apply the per-variant cleanup (lines 607-622):
    Turkish folds, bracket removal and `. , /` removal. -/
def variantStr (tokens : List String) (sep : String) : String :=
  let v := joinSep sep tokens
  let v := mapStr foldTrLoChar v
  String.mk (v.data.filter (fun c =>
    ¬ ['(', ')', '[', ']', '.', ',', '/'].contains c))

/-- Append the concatenated and hyphenated variants of one ordering to the
    accumulator, with the source's length guards and the hyphen-variant
    duplicate check. -/
def addVariants (acc : List String) (vt : List String) : List String :=
  let v := variantStr vt ""
  let acc := if v.data.length ≥ 3 then acc ++ [v] else acc
  let vh := variantStr vt "-"
  if vh.data.length ≥ 3 ∧ ¬ acc.contains vh then acc ++ [vh] else acc

/-- The full `domain_variants` accumulation before de-duplication
    (find_website, lines 583-631). -/
def domainVariantsRaw (prog : List (List String)) (rawTokensOriginal : List String)
    (cleanName : String) : List String :=
  let dv := prog.foldl (fun acc tl =>
    if tl = [] then acc
    else (variantsToTry tl).foldl addVariants acc) []
  let dv := rawTokensOriginal.foldl (fun acc t =>
    if pyIsDigit t then acc ++ ["hotel" ++ t, t ++ "hotel"] else acc) dv
  dv ++ [cleanName]

/-- The priority bucketing and stable length-descending sort of the
    de-duplicated variants (find_website, lines 640-657). -/
def prioritySort (dv : List String) : List String :=
  let has_oteli := dv.filter (fun v => endsS v "oteli")
  let has_otel_not_oteli := dv.filter (fun v => endsS v "otel" ∧ ¬ endsS v "oteli")
  let no_hotel_keyword := dv.filter (fun v =>
    ¬ pyIn "hotel" v ∧ ¬ (endsS v "otel" ∨ endsS v "oteli"))
  let has_hotel_keyword := dv.filter (fun v =>
    pyIn "hotel" v ∧ ¬ (endsS v "otel" ∨ endsS v "oteli"))
  sortLenDesc has_oteli ++ sortLenDesc has_otel_not_oteli ++
    sortLenDesc no_hotel_keyword ++ sortLenDesc has_hotel_keyword

/-- The result of the name-preparation stage of `find_website`. -/
structure NamePrep where
  cleanName : String
  variants : List String
deriving DecidableEq, Repr

/-- The name-cleaning and domain-variant pipeline of `find_website`
    (discovery.py, lines 477-657), from the stripped hotel name to the
    final concatenated `clean_name` and the priority-sorted
    `domain_variants`. -/
def prepareName (hotel_name : String) : NamePrep :=
  let base_name := _normalize_name_for_search hotel_name
  let clean0 := pyLower base_name
  let raw_name := clean0
  let clean1 := stripNumPre clean0
  let clean2 := pyReplace clean1 "&" ""
  let clean3 := String.mk (clean2.data.filter keepNameChar)
  let temp0 := pyLower clean3
  let temp1 := mapStr foldTrLoChar (mapStr foldTrUpToLo temp0)
  let found := TYPE_SUFFIXES.find? (fun suf => endsS temp1 (" " ++ suf))
  let removedSuffix := found
  let clean4 := match found with
    | some suf => pyStrip (dropLastChars clean3 (suf.data.length + 1))
    | none => clean3
  let rawTokensOriginal := splitTokens raw_name
  let rawTokens := (splitTokens clean4).map pyLower
  let core0 := rawTokens.filter (fun t =>
    ¬ FW_STOPWORDS.contains t ∧ ¬ FW_TYPE_WORDS.contains (clean_turkish t))
  let core := if core0 = [] then rawTokens.filter (fun t => ¬ FW_STOPWORDS.contains t)
    else core0
  let prog0 := if core ≠ [] then prefixesOf core else prefixesOf rawTokens
  let prog1 :=
    if core.length < rawTokens.length ∧ rawTokens.length > 1 then
      ((List.range (rawTokens.length - core.length)).map
          (fun j => rawTokens.take (core.length + 1 + j))).foldl
        (fun acc tl => if acc.contains tl then acc else acc ++ [tl]) prog0
    else prog0
  let prog := match removedSuffix with
    | some suf =>
      if core ≠ [] ∧ ¬ prog1.contains (core ++ [suf]) then (core ++ [suf]) :: prog1
      else prog1
    | none => prog1
  let clean5 := mapStr foldTrLoChar (mapStr foldTrUpToUp clean4)
  let clean6 := String.mk (clean5.data.filter (fun c =>
    ¬ ['(', ')', '[', ']', ' ', '.', ',', '/'].contains c))
  let variants := prioritySort (dedupL (domainVariantsRaw prog rawTokensOriginal clean6))
  ⟨clean6, variants⟩

/-- The priority-sorted `domain_variants` list `find_website` builds for a
    hotel name (after the name is stripped, as at the top of the
    function). -/
def priorityVariants (hotel_name : String) : List String :=
  (prepareName (pyStrip hotel_name)).variants

/-- `BLACKLIST_DOMAINS` (discovery.py, lines 24-32). -/
def BLACKLIST_DOMAINS : List String :=
  ["booking.com", "tripadvisor", "trivago", "etstur.com", "hotels.com",
   "expedia", "tatilbudur.com", "agoda.com", "facebook.com", "instagram.com",
   "twitter.com", "linkedin.com", "youtube.com", "google.com", "wikipedia",
   "enuygun.com", "obilet.com", "skyscanner.com", "skyscanner.com.tr",
   "hotel-istanbul.net", "hotel-of-istanbul.com", "hotel-tr.com",
   "otelz.com", "otelz.com.tr", "jollytur.com", "tatilsepeti.com",
   "setur.com.tr", "neredekal.com", "gezimanya.com", "trip.com"]

/-- Decoded result of the DDG redirect parameters
    (`parse_qs(urlsplit(href).query)` lookup): an exception, a missing
    key, or the decoded value. -/
inductive DecodeRes where
  | err
  | absent
  | val (s : String)

/-- The deterministic external world seen by `find_website`: the
    validator's world plus `tldextract` (public-suffix data), the batch
    DNS filter, `requests.head` (status and `location` header, `none` for
    an exception), the DDG search (`none` for a re-raised exception; a
    circuit-open call yields `some ""`), BeautifulSoup anchor/title
    extraction and redirect-parameter decoding, and the `ddg_circuit`
    state observation. -/
structure DiscEnv extends WebEnv where
  tldDomain : String → String
  tldSuffix : String → String
  dnsFilter : List String → List String
  head : String → Option (Nat × Option String)
  searchHtml : String → Option String
  parseLinks : String → List (String × String)
  decodeQ : String → String → DecodeRes
  ddgOpen : Bool

/-- `stopwords` of `_is_relevant_domain` (discovery.py, lines 307-310). -/
def IRD_STOPWORDS : List String :=
  ["the", "a", "an", "and", "or", "in", "at", "by", "for", "of", "to",
   "special", "class", "boutique", "luxury", "deluxe"]

/-- `hotel_keywords` of `_is_relevant_domain` (discovery.py, lines 311-314). -/
def IRD_HOTEL_KEYWORDS : List String :=
  ["hotel", "hotels", "otel", "oteller", "resort", "spa", "apart",
   "pansiyon", "motel", "pension", "guest", "house", "hostel", "lodge", "inn"]

/-- `_is_relevant_domain(hotel_name, url)` (discovery.py, lines 301-346). -/
def _is_relevant_domain (env : DiscEnv) (hotel_name url : String) : Bool :=
  let domain := pyLower (env.tldDomain url)
  if IRD_HOTEL_KEYWORDS.contains domain ∧ domain.data.length < 6 then false
  else if IRD_HOTEL_KEYWORDS.any (fun kw => pyIn kw domain) then true
  else
    let tokens := (splitTokens (pyLower hotel_name)).filter (fun t =>
      t.data.length > 2 ∧ ¬ IRD_STOPWORDS.contains t ∧ ¬ IRD_HOTEL_KEYWORDS.contains t)
    if tokens.any (fun token =>
        let tc := String.mk (token.data.filter (fun c => ¬ c.isDigit))
        tc.data.length ≥ 3 ∧ pyIn tc domain) then true
    else domain.data.length ≥ 6

/-- `stopwords` of `calculate_score` (discovery.py, line 355). -/
def CS_STOPWORDS : List String :=
  ["the", "a", "an", "and", "or", "in", "at", "by", "for", "of", "to", "is"]

/-- `hotel_keywords` of `calculate_score` (discovery.py, line 390). -/
def CS_HOTEL_KEYWORDS : List String :=
  ["hotel", "otel", "resort", "apart", "pansiyon", "villa", "lodge", "inn",
   "motel", "pension"]

/-- The `name_tokens` set of `calculate_score` (lines 353-359): Python's
    `set(...)` is modelled as first-occurrence de-duplication — the
    per-token contributions are summed, so iteration order is
    immaterial. -/
def csNameTokens (hotel_name : String) : List String :=
  let toks0 := dedupL (splitTokens (pyLower hotel_name))
  let toks1 := toks0.filter (fun t => t.data.length > 2 ∧ ¬ CS_STOPWORDS.contains t)
  if toks1 = [] then toks0 else toks1

/-- One token's contribution to the domain-overlap count (lines 370-384). -/
def csTokenStep (domain_name dnc : String) (acc : ℚ) (token : String) : ℚ :=
  let tc := String.mk (token.data.filter (fun c => ¬ c.isDigit))
  if pyIn token domain_name || pyIn tc domain_name then acc + 1
  else if pyIn tc dnc then acc + 1
  else if tc.data.length ≥ 4 ∧
      (startsS dnc (String.mk (tc.data.take 4)) ||
       startsS tc (String.mk (dnc.data.take 4))) then acc + 1/2
  else acc

/-- Part 1 of `calculate_score`: domain token overlap, up to 45 points. -/
def csOverlap (name_tokens : List String) (domain_name dnc : String) : ℚ :=
  if name_tokens ≠ [] then
    name_tokens.foldl (csTokenStep domain_name dnc) 0 / (name_tokens.length : ℚ) * 45
  else 0

/-- Part 2 of `calculate_score`: a hotel keyword in the domain, 20 points. -/
def csKeyword (domain_name : String) : ℚ :=
  if CS_HOTEL_KEYWORDS.any (fun kw => pyIn kw domain_name) then 20 else 0

/-- Part 3 of `calculate_score`: the title check, up to 30 points. -/
def csTitle (hotel_name : String) (name_tokens : List String) (title : String) : ℚ :=
  if title ≠ "" then
    if pyIn (pyLower hotel_name) (pyLower title) then 30
    else
      let mit := (name_tokens.filter (fun t =>
        t.data.length > 3 ∧ pyIn t (pyLower title))).length
      if mit > 0 then min ((mit : ℚ) * 10) 25 else 0
  else 0

/-- Part 4 of `calculate_score`: the domain-length bonus. -/
def csLength (domain_name : String) : ℚ :=
  if domain_name.data.length > 8 then 10
  else if domain_name.data.length > 5 then 5 else 0

/-- `calculate_score(hotel_name, found_url, title)` (discovery.py, lines
    349-416). -/
def calculate_score (env : DiscEnv) (hotel_name found_url title : String) : ℚ :=
  let name_tokens := csNameTokens hotel_name
  let domain_name := pyLower (env.tldDomain found_url)
  let dnc := String.mk (domain_name.data.filter (fun c => ¬ c.isDigit))
  min (csOverlap name_tokens domain_name dnc + csKeyword domain_name +
    csTitle hotel_name name_tokens title + csLength domain_name) 100

/-- `stopwords` of `_build_progressive_queries` (discovery.py, lines 235-238). -/
def BPQ_STOPWORDS : List String :=
  ["the", "a", "an", "and", "or", "in", "at", "by", "for", "of", "to",
   "special", "class", "boutique", "luxury", "deluxe"]

/-- `type_words` of `_build_progressive_queries` (discovery.py, lines 239-242). -/
def BPQ_TYPE_WORDS : List String :=
  ["hotel", "otel", "resort", "spa", "apart", "pansiyon", "motel",
   "pension", "guest", "house", "hostel", "lodge", "inn"]

/-- `[l.take i for i in range(start_len, len(l)+1)]` with
    `start_len = 2 if len(l) >= 2 else 1`. -/
def progRange (l : List String) : List (List String) :=
  let start := if l.length ≥ 2 then 2 else 1
  (List.range (l.length + 1 - start)).map (fun j => l.take (start + j))

/-- `_build_progressive_queries(hotel_name, city)` (discovery.py, lines
    220-299). -/
def _build_progressive_queries (hotel_name city : String) : List String :=
  let parts := (pySplitOn '-' hotel_name).map pyStrip
  let base := pyLower (pyIndex parts 0)
  let suffix := if parts.length > 1 then pyLower (pyIndex parts 1) else ""
  let tokens := splitTokens base
  let suffix_tokens := if suffix ≠ "" then splitTokens suffix else []
  let core0 := tokens.filter (fun t =>
    ¬ BPQ_STOPWORDS.contains t ∧ ¬ BPQ_TYPE_WORDS.contains t)
  let core := if core0 = [] then tokens.filter (fun t => ¬ BPQ_STOPWORDS.contains t)
    else core0
  let prog0 := progRange core
  let cnn := core.filter (fun t => ¬ pyIsDigit t)
  let prog1 := prog0 ++ (if cnn ≠ [] ∧ cnn ≠ core then progRange cnn else [])
  let prog2 := prog1 ++ (if tokens ≠ [] then [tokens] else [])
  let location_hint := joinSep " " suffix_tokens
  let queries := prog2.foldl (fun acc tl =>
    if tl = [] then acc
    else
      let tl := if tl.any (fun t => BPQ_TYPE_WORDS.contains t) then tl
        else tl ++ ["hotel"]
      let phrase := joinSep " " tl
      if phrase.data.length < 3 then acc
      else
        let acc := acc ++
          ["\"" ++ phrase ++ "\" " ++ city ++ " otel",
           phrase ++ " " ++ city ++ " otel"]
        let acc := if location_hint ≠ "" then acc ++
            ["\"" ++ phrase ++ "\" " ++ location_hint ++ " otel",
             phrase ++ " " ++ location_hint ++ " otel"]
          else acc
        if suffix_tokens ≠ [] then
          let pws := joinSep " " (tl ++ suffix_tokens)
          if pws.data.length ≥ 3 then acc ++
            ["\"" ++ pws ++ "\" " ++ city ++ " otel",
             pws ++ " " ++ city ++ " otel"]
          else acc
        else acc) []
  dedupL queries

/-- The return dictionaries of `find_website`, field by field.  A found
    result sets `url`, `score`, `source`; a not-found result sets `url =
    none` and `reason`; the bare Python `None` return is modelled by the
    surrounding `Option`. -/
structure FWDict where
  url : Option String
  score : Option ℚ
  source : Option String
  reason : Option String
deriving DecidableEq, Repr

/-- `{'url': u, 'score': s, 'source': src}`. -/
def foundDict (u : String) (s : ℚ) (src : String) : FWDict :=
  ⟨some u, some s, some src, none⟩

/-- `{"url": None, "reason": r}`. -/
def notFoundDict (r : String) : FWDict := ⟨none, none, none, some r⟩

/-- The TLD expansion list (find_website, lines 666-669). -/
def TLDS : List String :=
  [".com.tr", ".org.tr", ".net.tr", ".biz.tr",
   ".com", ".net", ".org", ".biz", ".info", ".co"]

/-- `url_variants` before DNS filtering (find_website, lines 671-678):
    both `http://www.` and `http://` per variant and TLD, de-duplicated. -/
def urlVariantsOf (variants : List String) : List String :=
  dedupL (variants.foldl (fun acc v =>
    TLDS.foldl (fun a tld =>
      a ++ ["http://www." ++ v ++ tld, "http://" ++ v ++ tld]) acc) [])

/-- Statuses accepted by Strategy A's HEAD probe. -/
def ALLOWED_HEAD_1 : List Nat := [200, 301, 302, 303, 307, 308]

/-- Redirect statuses whose `location` header is followed in Strategy A. -/
def REDIRECT_STATUSES : List Nat := [301, 302, 303, 307, 308]

/-- Statuses accepted by Strategy C's HEAD probe (no 303). -/
def ALLOWED_HEAD_3 : List Nat := [200, 301, 302, 307, 308]

/-- The negative-outcome flags of Strategy A. -/
structure S1Flags where
  checked : Bool
  relevant : Bool
  valid : Bool
deriving DecidableEq, Repr

/-- The `domain_quality` bonus of Strategy A (find_website, lines
    719-725); `domainUrl` is the probed URL (the loop variable `domain`),
    not the redirect target. -/
def domainQuality (hotel_name domainUrl : String) : ℚ :=
  (if pyIn "resort" (pyLower domainUrl) ∧ pyIn "resort" (pyLower hotel_name) then 10 else 0)
  + (if pyIn "otel" (pyLower domainUrl) ∧
        pyIn "otel" (pyReplace (pyReplace (pyLower hotel_name) "ı" "i") "İ" "i")
     then 15 else 0)
  + (if ["spa", "beach", "villa"].any (fun kw =>
        pyIn kw (pyLower hotel_name) ∧ pyIn kw (pyLower domainUrl)) then 8 else 0)

/-- The per-URL loop of Strategy A (find_website, lines 691-746): returns
    an early high-confidence result, or the flags, tracked best candidate
    and threaded validation cache. -/
def st1Loop (env : DiscEnv) (now : ℚ) (hotel_name city : String) :
    List String → S1Flags → Option (String × ℚ) → ℚ → VState →
    Option FWDict × S1Flags × Option (String × ℚ) × VState
  | [], fl, best, _, st => (none, fl, best, st)
  | u :: rest, fl, best, bs, st =>
    let fl := { fl with checked := true }
    match env.head u with
    | none => st1Loop env now hotel_name city rest fl best bs st
    | some (status, loc) =>
      if ALLOWED_HEAD_1.contains status then
        let final_url := if REDIRECT_STATUSES.contains status then loc.getD u else u
        if ¬ _is_relevant_domain env hotel_name final_url then
          st1Loop env now hotel_name city rest fl best bs st
        else
          let fl := { fl with relevant := true }
          let r := validate_hotel_content env.toWebEnv now st final_url hotel_name city
          let verdict := r.1
          let st' := r.2
          if verdict.is_hotel then
            let score := calculate_score env hotel_name final_url hotel_name
            let score := min (score + verdict.confidence / 2) 100
            let score := min (score + domainQuality hotel_name u) 100
            let fl := { fl with valid := true }
            let bb := if score > bs then (some (final_url, score), score) else (best, bs)
            if score ≥ 85 then
              (bb.1.map (fun p => foundDict p.1 p.2 "domain_guess"), fl, bb.1, st')
            else st1Loop env now hotel_name city rest fl bb.1 bb.2 st'
          else st1Loop env now hotel_name city rest fl best bs st'
      else st1Loop env now hotel_name city rest fl best bs st

/-- Strategy A — domain guessing (find_website, lines 578-757). -/
def strategy1 (env : DiscEnv) (now : ℚ) (hotel_name city : String) (prep : NamePrep)
    (st : VState) : Option FWDict × S1Flags × Option (String × ℚ) × VState :=
  if prep.cleanName.data.length < 3 then (none, ⟨false, false, false⟩, none, st)
  else
    let urls := env.dnsFilter (urlVariantsOf prep.variants)
    st1Loop env now hotel_name city urls ⟨false, false, false⟩ none 0 st

/-- The negative-outcome flags of Strategy B. -/
structure S2Flags where
  cand : Bool
  rel : Bool
  valid : Bool
deriving DecidableEq, Repr

/-- The `uddg=` / `r=` redirect-parameter decoding of Strategy B
    (find_website, lines 799-812): a decode exception skips the link, a
    missing key keeps the raw href. -/
def decodeHref (env : DiscEnv) (href : String) : Option String :=
  if pyIn "uddg=" href then
    match env.decodeQ href "uddg" with
    | .err => none
    | .absent => some href
    | .val v => some v
  else if pyIn "r=" href then
    match env.decodeQ href "r" with
    | .err => none
    | .absent => some href
    | .val v => some v
  else some href

/-- Per-anchor processing in Strategy B (find_website, lines 784-835):
    filtering, redirect decoding, blacklist and minimum score; returns a
    kept candidate `(url, score)`. -/
def processLink (env : DiscEnv) (hotel_name : String) (link : String × String) :
    Option (String × ℚ) :=
  let href := link.1
  let title := String.mk (link.2.data.take 100)
  if href = "" || startsS href "/" || pyIn "duckduckgo" href then none
  else if ¬ startsS href "http" then none
  else
    match decodeHref env href with
    | none => none
    | some href =>
      if ¬ startsS href "http" then none
      else
        let ed := env.tldDomain href
        if BLACKLIST_DOMAINS.contains ed ∨
           BLACKLIST_DOMAINS.contains (ed ++ "." ++ env.tldSuffix href) then none
        else
          let score := calculate_score env hotel_name href title
          if score > 10 then some (href, score) else none

/-- The per-candidate validation loop of Strategy B (find_website, lines
    841-850). -/
def candLoop (env : DiscEnv) (now : ℚ) (hotel_name city : String) :
    List (String × ℚ) → S2Flags → VState → Option FWDict × S2Flags × VState
  | [], fl, st => (none, fl, st)
  | c :: rest, fl, st =>
    if ¬ _is_relevant_domain env hotel_name c.1 then
      candLoop env now hotel_name city rest fl st
    else
      let fl := { fl with rel := true }
      let r := validate_hotel_content env.toWebEnv now st c.1 hotel_name city
      if r.1.is_hotel then
        (some (foundDict c.1 (min (c.2 + r.1.confidence / 2) 100) "ddg_search"),
         { fl with valid := true }, r.2)
      else candLoop env now hotel_name city rest fl r.2

/-- The per-query loop of Strategy B (find_website, lines 768-855); a
    search exception aborts the whole strategy (outer `try`). -/
def st2Loop (env : DiscEnv) (now : ℚ) (hotel_name city : String) :
    List String → S2Flags → VState → Option FWDict × S2Flags × VState
  | [], fl, st => (none, fl, st)
  | q :: qs, fl, st =>
    match env.searchHtml q with
    | none => (none, fl, st)
    | some html =>
      let cands := ((env.parseLinks html).take 50).filterMap (processLink env hotel_name)
      if cands = [] then st2Loop env now hotel_name city qs fl st
      else
        let fl := { fl with cand := true }
        match candLoop env now hotel_name city (sortScoreDesc cands) fl st with
        | (some d, fl', st') => (some d, fl', st')
        | (none, fl', st') => st2Loop env now hotel_name city qs fl' st'

/-- The negative-outcome flags of Strategy C. -/
structure S3Flags where
  checked : Bool
  rel : Bool
  valid : Bool
deriving DecidableEq, Repr

/-- The per-TLD loop of Strategy C (find_website, lines 876-907). -/
def st3Loop (env : DiscEnv) (now : ℚ) (hotel_name city altName : String) :
    List String → S3Flags → VState → Option FWDict × S3Flags × VState
  | [], fl, st => (none, fl, st)
  | tld :: rest, fl, st =>
    let dom := "http://" ++ altName ++ tld
    let fl := { fl with checked := true }
    match env.head dom with
    | none => st3Loop env now hotel_name city altName rest fl st
    | some (status, loc) =>
      if ALLOWED_HEAD_3.contains status then
        let final_url := if status ≠ 200 then loc.getD dom else dom
        if ¬ _is_relevant_domain env hotel_name final_url then
          st3Loop env now hotel_name city altName rest fl st
        else
          let fl := { fl with rel := true }
          let r := validate_hotel_content env.toWebEnv now st final_url hotel_name city
          if r.1.is_hotel then
            let score := min (calculate_score env hotel_name final_url hotel_name +
              r.1.confidence / 2) 100
            (some (foundDict final_url score "alternative_tld"),
             { fl with valid := true }, r.2)
          else st3Loop env now hotel_name city altName rest fl r.2
      else st3Loop env now hotel_name city altName rest fl st

/-- Strategy C — alternative TLDs (find_website, lines 867-909). -/
def strategy3 (env : DiscEnv) (now : ℚ) (hotel_name city cleanName : String)
    (st : VState) : Option FWDict × S3Flags × VState :=
  let alt := pyStrip cleanName
  if alt.data.length < 2 then (none, ⟨false, false, false⟩, st)
  else st3Loop env now hotel_name city alt [".biz", ".info", ".mobi"] ⟨false, false, false⟩ st

/-- The Strategy A failure reason (find_website, lines 748-757). -/
def fwReason1 (fl1 : S1Flags) : Option String :=
  if fl1.checked ∧ ¬ fl1.valid then
    some (if fl1.relevant then "domain_not_hotel" else "domain_not_relevant")
  else none

/-- The Strategy B failure reason, kept only when A left none
    (find_website, lines 857-864). -/
def fwReason2 (r1 : Option String) (fl2 : S2Flags) : Option String :=
  match r1 with
  | some r => some r
  | none =>
    if fl2.cand ∧ ¬ fl2.valid then
      some (if fl2.rel then "ddg_no_valid" else "ddg_not_relevant")
    else if ¬ fl2.cand then some "ddg_no_candidates"
    else none

/-- The Strategy C failure reason, kept only when A and B left none
    (find_website, lines 911-915). -/
def fwReason3 (r2 : Option String) (fl3 : S3Flags) : Option String :=
  if fl3.checked ∧ ¬ fl3.valid ∧ r2 = none then
    some (if fl3.rel then "alternative_not_hotel" else "alternative_not_relevant")
  else r2

/-- `find_website(hotel_name, city)` (discovery.py, lines 449-918),
    returning the result dictionary (`none` for the bare Python `None`
    returned on an empty name) and the final validation-cache state. -/
def find_website (env : DiscEnv) (now : ℚ) (st : VState) (hotel_name0 city0 : String) :
    Option FWDict × VState :=
  let hotel_name := pyStrip hotel_name0
  let city := pyLower (pyStrip city0)
  if hotel_name = "" then (none, st)
  else
    let prep := prepareName hotel_name
    match strategy1 env now hotel_name city prep st with
    | (some d, _, _, st1) => (some d, st1)
    | (none, fl1, best, st1) =>
      let reason1 := fwReason1 fl1
      match best with
      | some p => (some (foundDict p.1 p.2 "domain_guess"), st1)
      | none =>
        let queries := if env.ddgOpen then [] else _build_progressive_queries hotel_name city
        match st2Loop env now hotel_name city queries ⟨false, false, false⟩ st1 with
        | (some d, _, st2) => (some d, st2)
        | (none, fl2, st2) =>
          let reason2 := fwReason2 reason1 fl2
          match strategy3 env now hotel_name city prep.cleanName st2 with
          | (some d, _, st3) => (some d, st3)
          | (none, fl3, st3) =>
            (some (notFoundDict ((fwReason3 reason2 fl3).getD "no_match")), st3)

/-! ## Definitions supporting the claim statements -/

/-- Well-formedness of a validation-cache state: every stored confidence
    lies in `[0, 100]` (true of every value the validator ever writes). -/
def WFV (st : VState) : Prop :=
  ∀ k v t, st k = some (v, t) → 0 ≤ v.confidence ∧ v.confidence ≤ 100

/-- The closed `source` set of found results. -/
def SOURCES : List String := ["domain_guess", "ddg_search", "alternative_tld"]

/-- The closed `ReasonCode` set of not-found results. -/
def REASONS : List String :=
  ["domain_not_relevant", "domain_not_hotel", "ddg_not_relevant",
   "ddg_no_candidates", "ddg_no_valid", "alternative_not_relevant",
   "alternative_not_hotel", "no_match"]

/-- A found-result dictionary: `url` set, `score ∈ [0,100]`, `source` in
    the closed set, no `reason` key. -/
def FoundShape (d : FWDict) : Prop :=
  ∃ u s src, d.url = some u ∧ d.score = some s ∧ 0 ≤ s ∧ s ≤ 100 ∧
    d.source = some src ∧ src ∈ SOURCES ∧ d.reason = none

/-- A not-found-result dictionary: `url = nil`, a `reason` from the closed
    set, and no score or source. -/
def NotFoundShape (d : FWDict) : Prop :=
  d.url = none ∧ d.score = none ∧ d.source = none ∧
    ∃ r, d.reason = some r ∧ r ∈ REASONS

/-- Index of the first occurrence of `x` (length of the list when absent);
    used to state variant-ordering claims. -/
def posOf (x : String) : List String → Nat
  | [] => 0
  | y :: t => if y = x then 0 else posOf x t + 1

/-- The email-scoring formula exactly as claim C7 words it: +50 when the
    email's domain part equals the site host with a `'www.'` *prefix*
    removed, else +30 on substring containment either way; +40 for an
    exact preferred local part, else +20 for a contained one; −20 for a
    generic consumer mail provider. -/
def score_email_spec_claimed (e d : String) : ℤ :=
  let edom := pyIndex (pySplitOn '@' e) 1
  let wdom := if startsS d "www." then String.mk (d.data.drop 4) else d
  (if edom = wdom then 50
   else if pyIn wdom edom || pyIn edom wdom then 30 else 0)
  + (if PREFERRED_LOCALS.contains (pyIndex (pySplitOn '@' e) 0) then 40
     else if PREFERRED_LOCALS.any (fun p => pyIn p (pyIndex (pySplitOn '@' e) 0)) then 20
     else 0)
  + (if GENERIC_DOMAINS.contains edom then -20 else 0)

/-- The email-scoring formula as amended: *every* occurrence of `'www.'`
    is removed from the site host (Python `domain.replace('www.', '')`),
    and the local part is taken from the lowercased email. -/
def score_email_spec_amended (e d : String) : ℤ :=
  let edom := pyIndex (pySplitOn '@' e) 1
  let wdom := pyReplace d "www." ""
  (if edom = wdom then 50
   else if pyIn wdom edom || pyIn edom wdom then 30 else 0)
  + (if PREFERRED_LOCALS.contains (pyIndex (pySplitOn '@' (pyLower e)) 0) then 40
     else if PREFERRED_LOCALS.any (fun p => pyIn p (pyIndex (pySplitOn '@' (pyLower e)) 0))
     then 20
     else 0)
  + (if GENERIC_DOMAINS.contains edom then -20 else 0)

/-- A sample cached verdict used in concrete cache statements. -/
def vSample : Verdict := ⟨true, 80, ["✓ Hotel keyword in domain: grandhotel.com"]⟩

/-- A validator world whose every fetch raises. -/
def wEnvNone : WebEnv := { fetch := fun _ => none, titleOf := fun _ => none }

/-- A crawler world whose every fetch raises. -/
def cEnvNone : CrawlEnv :=
  { fetchPage := fun _ => none
    anchors := fun _ => []
    urljoin := fun _ href => href
    extractEmails := fun _ => [] }

/-- A crawler world with one HTML page carrying one address. -/
def cEnvMail : CrawlEnv :=
  { fetchPage := fun _ => some ⟨"text/html", "body"⟩
    anchors := fun _ => []
    urljoin := fun _ href => href
    extractEmails := fun _ => ["info@x.com"] }

/-- A discovery world where everything fails or is empty. -/
def dEnvNone : DiscEnv :=
  { fetch := fun _ => none
    titleOf := fun _ => none
    tldDomain := fun _ => ""
    tldSuffix := fun _ => ""
    dnsFilter := fun _ => []
    head := fun _ => none
    searchHtml := fun _ => none
    parseLinks := fun _ => []
    decodeQ := fun _ _ => .err
    ddgOpen := false }

/-! ## Helper lemmas -/

/-- Reading a key immediately after writing it yields the stored payload
    (the TTL is positive). -/
theorem get_set_now (st : VState) (now : ℚ) (url : String) (v : Verdict) :
    get_validation_cache (set_validation_cache st now url v) now url = some v := by
  unfold get_validation_cache set_validation_cache is_cache_valid CACHE_TTL_SECONDS
  norm_num

/-- A cache hit comes from a stored row. -/
theorem get_some_row (st : VState) (now : ℚ) (url : String) (v : Verdict)
    (h : get_validation_cache st now url = some v) :
    ∃ t, st (pyLower url) = some (v, t) := by
  unfold get_validation_cache at h
  rcases hrow : st (pyLower url) with _ | p
  · rw [hrow] at h
    exact absurd h (by simp)
  · rw [hrow] at h
    rcases p with ⟨v', t⟩
    by_cases hv : is_cache_valid now t CACHE_TTL_SECONDS = true
    · simp only [hv, if_true] at h
      have hv' : v' = v := Option.some_inj.mp h
      subst hv'
      exact ⟨t, rfl⟩
    · simp only [Bool.not_eq_true] at hv
      simp [hv] at h

/-- The empty cache is well-formed. -/
theorem WFV_empty : WFV emptyVState := by
  intro k v t h
  exact absurd h (by simp [emptyVState])

/-- Writing a bounded verdict preserves cache well-formedness. -/
theorem WFV_set (st : VState) (now : ℚ) (url : String) (v : Verdict)
    (h : WFV st) (hv : 0 ≤ v.confidence ∧ v.confidence ≤ 100) :
    WFV (set_validation_cache st now url v) := by
  intro k v' t hrow
  unfold set_validation_cache at hrow
  by_cases hk : k = pyLower url
  · simp only [hk, if_true] at hrow
    obtain ⟨h1, _⟩ := Prod.mk.injEq .. ▸ Option.some_inj.mp hrow
    exact h1 ▸ hv
  · simp only [hk, if_false] at hrow
    exact h k v' t hrow

/-! ## Claim C4 — circuit breaker OPEN/HALF_OPEN transitions -/

/-- C4: in any breaker state that is OPEN, a request attempted at a time
    `now` with `now - last_failure_time ≥ recovery_timeout` is allowed and
    moves the breaker to HALF_OPEN (resetting the success count), so the
    breaker never rejects a probe beyond the recovery timeout after the
    last failure; and from any HALF_OPEN state a single `record_failure`
    moves the breaker back to OPEN and updates `last_failure_time`. -/
theorem claim_C4 (cfg : CircuitBreakerConfig) (now now' : ℚ) (cb cb' : CircuitBreaker)
    (hopen : cb.state = .OPEN)
    (htime : now - cb.last_failure_time ≥ cfg.recovery_timeout)
    (hhalf : cb'.state = .HALF_OPEN) :
    (_should_allow_request cfg now cb).1 = true ∧
    (_should_allow_request cfg now cb).2.state = .HALF_OPEN ∧
    (_should_allow_request cfg now cb).2.success_count = 0 ∧
    (record_failure cfg now' cb').state = .OPEN ∧
    (record_failure cfg now' cb').last_failure_time = now' := by
  unfold _should_allow_request record_failure
  rw [hopen, hhalf]
  simp [if_pos htime]

/-- Witness for C4 at the pre-configured `search` breaker parameters
    (threshold 5, recovery 60 s, success threshold 2). -/
theorem claim_C4_witness :
    (_should_allow_request ⟨5, 60, 2⟩ 75 ⟨.OPEN, 5, 0, 10⟩).1 = true ∧
    (_should_allow_request ⟨5, 60, 2⟩ 75 ⟨.OPEN, 5, 0, 10⟩).2.state = .HALF_OPEN ∧
    (_should_allow_request ⟨5, 60, 2⟩ 75 ⟨.OPEN, 5, 0, 10⟩).2.success_count = 0 ∧
    (record_failure ⟨5, 60, 2⟩ 80 ⟨.HALF_OPEN, 0, 1, 10⟩).state = .OPEN ∧
    (record_failure ⟨5, 60, 2⟩ 80 ⟨.HALF_OPEN, 0, 1, 10⟩).last_failure_time = 80 :=
  claim_C4 ⟨5, 60, 2⟩ 75 80 ⟨.OPEN, 5, 0, 10⟩ ⟨.HALF_OPEN, 0, 1, 10⟩ rfl (by norm_num) rfl

/-! ## Claim C5 — cache put/get round trip -/

/-- C5 counterexample: a `get` at exactly TTL seconds after the `put` does
    *not* return the stored payload with a stale flag — it returns a miss
    (`None`), contradicting the claim that the payload is returned with
    `fresh = false`. -/
theorem claim_C5_counterexample :
    get_validation_cache (set_validation_cache emptyVState 0 "http://u.com" vSample)
      CACHE_TTL_SECONDS "http://u.com" = none ∧
    ¬ (get_validation_cache (set_validation_cache emptyVState 0 "http://u.com" vSample)
        CACHE_TTL_SECONDS "http://u.com").isSome = true := by
  constructor
  · unfold get_validation_cache set_validation_cache is_cache_valid CACHE_TTL_SECONDS
    norm_num
  · unfold get_validation_cache set_validation_cache is_cache_valid CACHE_TTL_SECONDS
    norm_num

/-- C5 as amended: after `put` at time `tw`, a `get` at time `tr` with
    `tr - tw < ttl` returns the stored payload (fresh), and a `get` with
    `tr - tw ≥ ttl` returns `none` — the expired row is treated as absent
    rather than being returned with a stale flag. -/
theorem claim_C5 (st : VState) (url : String) (v : Verdict) (tw tr : ℚ) :
    (tr - tw < CACHE_TTL_SECONDS →
      get_validation_cache (set_validation_cache st tw url v) tr url = some v) ∧
    (CACHE_TTL_SECONDS ≤ tr - tw →
      get_validation_cache (set_validation_cache st tw url v) tr url = none) := by
  unfold get_validation_cache set_validation_cache is_cache_valid
  constructor
  · intro h
    simp [h]
  · intro h
    simp [not_lt.mpr h]

/-- Witness for C5 at a concrete row: fresh read 10 s after the write,
    stale read exactly at the TTL boundary. -/
theorem claim_C5_witness :
    get_validation_cache (set_validation_cache emptyVState 0 "http://u.com" vSample)
      10 "http://u.com" = some vSample ∧
    get_validation_cache (set_validation_cache emptyVState 0 "http://u.com" vSample)
      CACHE_TTL_SECONDS "http://u.com" = none :=
  ⟨(claim_C5 emptyVState "http://u.com" vSample 0 10).1
      (by norm_num [CACHE_TTL_SECONDS]),
   (claim_C5 emptyVState "http://u.com" vSample 0 CACHE_TTL_SECONDS).2
      (by norm_num)⟩

/-! ## Claim C7 — email scoring formula -/

/-- C7 counterexample: `score_email` strips *every* occurrence of `'www.'`
    from the site host (`domain.replace('www.', '')`), not only a prefix.
    For the host `x.www.y.com` the code sees the email domain `x.y.com` as
    an exact match (+50, total 90), while the claim's formula (prefix
    removal only) yields no domain points (total 40). -/
theorem claim_C7_counterexample :
    score_email "info@x.y.com" "x.www.y.com" = 90 ∧
    score_email_spec_claimed "info@x.y.com" "x.www.y.com" = 40 ∧
    ¬ score_email "info@x.y.com" "x.www.y.com" =
        score_email_spec_claimed "info@x.y.com" "x.www.y.com" := by
  refine ⟨by decide, by decide, by decide⟩

/-- C7 as amended: for every email containing `'@'`, `score_email(e, d)`
    is the sum of: 50 if e's domain part equals d with every occurrence of
    `'www.'` removed, else 30 if either domain is a substring of the
    other; plus 40 if the lowercased local part is exactly a preferred
    name, else 20 if it contains one; minus 20 for a generic consumer
    provider domain. -/
theorem claim_C7 (e d : String) (h : pyIn "@" e = true) :
    score_email e d = score_email_spec_amended e d := by
  unfold score_email score_email_spec_amended
  rw [if_pos h]

/-- Witness for C7 at a concrete lowercase address. -/
theorem claim_C7_witness :
    score_email "rezervasyon@grandhotel.com" "www.grandhotel.com" =
      score_email_spec_amended "rezervasyon@grandhotel.com" "www.grandhotel.com" :=
  claim_C7 "rezervasyon@grandhotel.com" "www.grandhotel.com" (by decide)

/-! ## Claim C6 — ALEXIA variant list and priority order -/

/-- C6 counterexample: both variants are generated, but the priority sort
    puts `alexiahotel` (which ends in `otel`, hence lands in the
    `has_otel_not_oteli` bucket) strictly *before* `alexiaresort` (bucket
    `no_hotel_keyword`), the opposite of the claimed order. -/
theorem claim_C6_counterexample :
    "alexiaresort" ∈ priorityVariants "ALEXIA RESORT & SPA HOTEL" ∧
    "alexiahotel" ∈ priorityVariants "ALEXIA RESORT & SPA HOTEL" ∧
    ¬ posOf "alexiaresort" (priorityVariants "ALEXIA RESORT & SPA HOTEL") <
        posOf "alexiahotel" (priorityVariants "ALEXIA RESORT & SPA HOTEL") := by
  refine ⟨by decide, by decide, by decide⟩

/-- C6 as amended: for "ALEXIA RESORT & SPA HOTEL" the variant list
    contains both `alexiaresort` and `alexiahotel` (the `&` removed, the
    `resort`/`spa` tokens kept), and after the priority sort `alexiahotel`
    occurs strictly before `alexiaresort`: variants ending in `otel` —
    which includes every variant ending in `hotel` — are bucketed ahead of
    variants without the `hotel` substring, which in turn precede the
    remaining `hotel`-containing variants; each bucket is sorted by length
    descending.  The full sorted list is stated explicitly. -/
theorem claim_C6 :
    "alexiaresort" ∈ priorityVariants "ALEXIA RESORT & SPA HOTEL" ∧
    "alexiahotel" ∈ priorityVariants "ALEXIA RESORT & SPA HOTEL" ∧
    posOf "alexiahotel" (priorityVariants "ALEXIA RESORT & SPA HOTEL") <
      posOf "alexiaresort" (priorityVariants "ALEXIA RESORT & SPA HOTEL") ∧
    priorityVariants "ALEXIA RESORT & SPA HOTEL" =
      ["alexia-hotel", "alexiahotel", "alexia-resort-spa", "alexiaresortspa",
       "alexia-resort", "alexiaresort", "hotel-alexia", "hotelalexia"] := by
  refine ⟨by decide, by decide, by decide, by decide⟩

/-! ## Claim C2 — validation exception path and the cache -/

/-- `validateCompute` either leaves the cache untouched or writes exactly
    the verdict it returns. -/
theorem validateCompute_state_cases (env : WebEnv) (now : ℚ) (st : VState)
    (url n c : String) :
    (validateCompute env now st url n c).2 = st ∨
    (validateCompute env now st url n c).2 =
      set_validation_cache st now url (validateCompute env now st url n c).1 := by
  unfold validateCompute
  cases hf : env.fetch url with
  | none =>
    simp only [hf]
    split_ifs
    · exact Or.inr rfl
    · exact Or.inl rfl
  | some resp =>
    simp only [hf]
    split_ifs <;> first | exact Or.inl rfl | exact Or.inr rfl

/-- C2 counterexample: for a URL whose host contains a hotel keyword
    (domain score 40), a raised page fetch makes `validate_hotel_content`
    return `is_hotel = true` (confidence `min(40+10, 100) = 50`) *and*
    write that verdict to the validation cache — the claim asserts a
    "not a hotel" verdict and an unchanged cache. -/
theorem claim_C2_counterexample :
    (validate_hotel_content wEnvNone 0 emptyVState "http://grandhotel.com" "n" "c").1.is_hotel
      = true ∧
    ((validate_hotel_content wEnvNone 0 emptyVState "http://grandhotel.com" "n" "c").2
        "http://grandhotel.com").isSome = true := by
  refine ⟨by decide, by decide⟩

/-- C2 as amended: on a cache miss, when the page fetch raises and the
    domain analysis scored below 40 (no hotel keyword in the host), the
    call returns the not-a-hotel verdict `{is_hotel: false, confidence:
    0}` and writes nothing to the validation cache; when the domain
    analysis scored 40 (hotel keyword present), the call instead returns
    `is_hotel = true` and caches that verdict. -/
theorem claim_C2 (env : WebEnv) (now : ℚ) (st : VState) (url n c : String)
    (hmiss : get_validation_cache st now url = none)
    (hexc : env.fetch url = none) :
    ((validateDomainScore url).1 < 40 →
      (validate_hotel_content env now st url n c).1.is_hotel = false ∧
      (validate_hotel_content env now st url n c).1.confidence = 0 ∧
      (validate_hotel_content env now st url n c).2 = st) ∧
    (40 ≤ (validateDomainScore url).1 →
      (validate_hotel_content env now st url n c).1.is_hotel = true ∧
      (validate_hotel_content env now st url n c).2 =
        set_validation_cache st now url (validate_hotel_content env now st url n c).1) := by
  unfold validate_hotel_content
  simp only [hmiss]
  unfold validateCompute
  simp only [hexc]
  constructor
  · intro hlt
    rw [if_neg (by simp only [ge_iff_le, not_le]; exact hlt)]
    exact ⟨rfl, rfl, rfl⟩
  · intro hge
    rw [if_pos hge]
    exact ⟨rfl, rfl⟩

/-- Witness for C2 on a host with no hotel keyword: the exception path
    returns not-a-hotel and leaves the cache exactly as it was. -/
theorem claim_C2_witness :
    (validate_hotel_content wEnvNone 0 emptyVState "http://example.com" "n" "c").1.is_hotel
      = false ∧
    (validate_hotel_content wEnvNone 0 emptyVState "http://example.com" "n" "c").1.confidence
      = 0 ∧
    (validate_hotel_content wEnvNone 0 emptyVState "http://example.com" "n" "c").2
      = emptyVState :=
  (claim_C2 wEnvNone 0 emptyVState "http://example.com" "n" "c" rfl rfl).1 (by decide)

/-! ## Claim C9 — validation determinism under a fixed environment -/

/-- C9: with the external responses fixed (the deterministic environment)
    and no eviction between the calls, two consecutive
    `validate_hotel_content` calls with the same arguments return the
    same verdict: the first call either hits the cache (leaving it
    unchanged), caches exactly the verdict it returns (which the second
    call then reads back), or — on the uncached exception path — leaves
    the cache unchanged so the second call recomputes identically. -/
theorem claim_C9 (env : WebEnv) (now : ℚ) (st : VState) (url n c : String) :
    (validate_hotel_content env now
      ((validate_hotel_content env now st url n c).2) url n c).1 =
    (validate_hotel_content env now st url n c).1 := by
  unfold validate_hotel_content
  cases hg : get_validation_cache st now url with
  | some v => simp [hg]
  | none =>
    simp only [hg]
    rcases validateCompute_state_cases env now st url n c with hst | hst
    · rw [hst, hg]
    · rw [hst, get_set_now]

/-! ## Claim C3 — crawl bounds and same-host invariant -/

/-- `takeWhile` is idempotent. -/
theorem takeWhile_idem {α : Type} (p : α → Bool) :
    ∀ l : List α, (l.takeWhile p).takeWhile p = l.takeWhile p := by
  intro l
  induction l with
  | nil => rfl
  | cons c t ih =>
    by_cases h : p c = true
    · simp [List.takeWhile, h, ih]
    · simp [List.takeWhile, h]

/-- Stripping a fragment does not change the netloc (CPython's netloc
    never contains `#`). -/
theorem urlNetloc_cutAt (u : String) : urlNetloc (cutAt '#' u) = urlNetloc u := by
  unfold urlNetloc netlocChars cutAt
  rw [show (String.mk (u.data.takeWhile (fun c => c ≠ '#'))).data =
      u.data.takeWhile (fun c => c ≠ '#') from rfl]
  rw [takeWhile_idem]

/-- Every element of the queue produced by `enqueueLinks` was already in
    the queue or lies on the root host. -/
theorem enqueueLinks_sub (env : CrawlEnv) (dom cur : String) (vis : List String) :
    ∀ (links q : List String) (x : String),
      x ∈ enqueueLinks env dom cur vis links q → x ∈ q ∨ urlNetloc x = dom := by
  unfold enqueueLinks
  intro links
  induction links with
  | nil => exact fun q x hx => Or.inl hx
  | cons l ls ih =>
    intro q x hx
    rw [List.foldl_cons] at hx
    rcases ih _ x hx with hmem | hd
    · revert hmem
      dsimp only
      split_ifs with h1 h2 h3 h4
      · exact Or.inl
      · exact Or.inl
      · intro hm
        rcases List.mem_cons.mp hm with he | hq
        · exact Or.inr (he ▸ (urlNetloc_cutAt _).trans h2.1)
        · exact Or.inl hq
      · intro hm
        rcases List.mem_append.mp hm with hq | he
        · exact Or.inl hq
        · exact Or.inr ((List.mem_singleton.mp he) ▸ (urlNetloc_cutAt _).trans h2.1)
      · exact Or.inl
    · exact Or.inr hd

/-- The crawl-loop invariant: starting from a queue and visited set that
    satisfy a host predicate `P` (closed under "lies on the root host"),
    the loop keeps every visited and queued URL inside `P`, keeps the
    visited list duplicate-free, and visits at most `b` new pages. -/
theorem crawlAux_inv (env : CrawlEnv) (dom : String) (P : String → Prop)
    (hP : ∀ x, urlNetloc x = dom → P x) :
    ∀ (b : Nat) (q vis : List String) (f : Found),
      (∀ u ∈ q, P u) → (∀ u ∈ vis, P u) → vis.Nodup →
      (∀ u ∈ (crawlAux env dom b q vis f).2.2.1, P u) ∧
      (∀ u ∈ (crawlAux env dom b q vis f).2.1, P u) ∧
      (crawlAux env dom b q vis f).2.2.1.Nodup ∧
      (crawlAux env dom b q vis f).2.2.1.length ≤ vis.length + b := by
  intro b
  induction b with
  | zero =>
    intro q vis f hq hv hnd
    cases q with
    | nil => exact ⟨by simpa [crawlAux] using hv, by simp [crawlAux],
        by simpa [crawlAux] using hnd, by simp [crawlAux]⟩
    | cons u rest => exact ⟨by simpa [crawlAux] using hv, by simpa [crawlAux] using hq,
        by simpa [crawlAux] using hnd, by simp [crawlAux]⟩
  | succ b ih =>
    intro q
    induction q with
    | nil =>
      intro vis f hq hv hnd
      exact ⟨by simpa [crawlAux] using hv, by simp [crawlAux],
        by simpa [crawlAux] using hnd, by simp [crawlAux]⟩
    | cons u rest ihq =>
      intro vis f hq hv hnd
      have hqrest : ∀ x ∈ rest, P x := fun x hx => hq x (List.mem_cons_of_mem _ hx)
      rw [crawlAux]
      split_ifs with hvis hskip
      · exact ihq vis f hqrest hv hnd
      · exact ihq vis f hqrest hv hnd
      · cases hfp : env.fetchPage u with
        | none => exact ihq vis f hqrest hv hnd
        | some resp =>
          dsimp only
          by_cases hct : htmlContentType resp.contentType
          · rw [if_neg (by simpa using hct)]
            have hvis' : ∀ x ∈ u :: vis, P x := by
              intro x hx
              rcases List.mem_cons.mp hx with he | hxv
              · exact he ▸ hq u (List.mem_cons_self u rest)
              · exact hv x hxv
            have hnd' : (u :: vis).Nodup := by
              refine List.nodup_cons.mpr ⟨?_, hnd⟩
              intro hu
              exact hvis (by simpa using hu)
            have hq' : ∀ x ∈ enqueueLinks env dom u (u :: vis)
                (env.anchors resp.text) rest, P x := by
              intro x hx
              rcases enqueueLinks_sub env dom u (u :: vis) _ rest x hx with hr | hh
              · exact hqrest x hr
              · exact hP x hh
            cases hb : bestOf (pageFound u dom (env.extractEmails resp.text) f) with
            | some p =>
              dsimp only
              by_cases hsc : (p.2 ≥ 70)
              · rw [if_pos hsc]
                refine ⟨hvis', hq', hnd', ?_⟩
                simp only [List.length_cons]
                omega
              · rw [if_neg hsc]
                obtain ⟨c1, c2, c3, c4⟩ := ih _ _ _ hq' hvis' hnd'
                exact ⟨c1, c2, c3, by simp only [List.length_cons] at c4; omega⟩
            | none =>
              dsimp only
              obtain ⟨c1, c2, c3, c4⟩ := ih _ _ _ hq' hvis' hnd'
              exact ⟨c1, c2, c3, by simp only [List.length_cons] at c4; omega⟩
          · rw [if_pos (by simpa using hct)]
            exact ihq vis f hqrest hv hnd

/-- A successfully parsed start URL yields its total netloc. -/
theorem urlNetlocE_eq (u d : String) (h : urlNetlocE u = some d) : d = urlNetloc u := by
  unfold urlNetlocE at h
  dsimp only at h
  split_ifs at h
  exact (Option.some_inj.mp h).symm

/-- C3: for every start URL accepted by the URL parser and every
    `max_pages`, the crawl marks visited (and counts) at most `max_pages`
    distinct URLs, and every URL it visits or still holds enqueued beyond
    the seed has the same host as the start URL. -/
theorem claim_C3 (env : CrawlEnv) (start : String) (m : Nat)
    (r : Option String × List String × List String × Found)
    (h : crawl_for_email env start m = .ok r) :
    r.2.2.1.length ≤ m ∧ r.2.2.1.Nodup ∧
    (∀ u ∈ r.2.2.1, u = start ∨ urlNetloc u = urlNetloc start) ∧
    (∀ u ∈ r.2.1, u = start ∨ urlNetloc u = urlNetloc start) := by
  unfold crawl_for_email at h
  cases hn : urlNetlocE start with
  | none => rw [hn] at h; exact absurd h (by simp)
  | some dom =>
    rw [hn] at h
    have hdom : dom = urlNetloc start := urlNetlocE_eq start dom hn
    have hr : r = crawlAux env dom m [start] [] [] := by
      injection h with h'
      exact h'.symm
    subst hr
    have hinv := crawlAux_inv env dom
      (fun u => u = start ∨ urlNetloc u = urlNetloc start)
      (fun x hx => Or.inr (by rw [hx, hdom])) m [start] [] []
      (by intro u hu; exact Or.inl (List.mem_singleton.mp hu))
      (by intro u hu; exact absurd hu (List.not_mem_nil u))
      List.nodup_nil
    exact ⟨by simpa using hinv.2.2.2, hinv.2.2.1, hinv.1, hinv.2.1⟩

/-- Witness for C3: with a dead network and `max_pages = 0` the crawl
    visits nothing and the queue still holds only the seed. -/
theorem claim_C3_witness :
    (([] : List String).length ≤ 0) ∧ ([] : List String).Nodup ∧
    (∀ u ∈ ([] : List String),
      u = "http://x.com" ∨ urlNetloc u = urlNetloc "http://x.com") ∧
    (∀ u ∈ ["http://x.com"],
      u = "http://x.com" ∨ urlNetloc u = urlNetloc "http://x.com") :=
  claim_C3 cEnvNone "http://x.com" 0 (none, ["http://x.com"], [], [])
    (by unfold crawl_for_email; unfold crawlAux; rfl)

/-! ## Claim C8 — crawl failure semantics -/

/-- C8 counterexample: for the start URL `http://[` the initial
    `urlparse(start_url)` raises `ValueError: Invalid IPv6 URL` before the
    crawl loop, so `crawl_for_email` propagates an exception to its
    caller instead of returning a string or null. -/
theorem claim_C8_counterexample :
    crawl_for_email cEnvNone "http://[" 5 = .error () := by
  unfold crawl_for_email
  rfl

/-- C8 as amended: for every start URL whose netloc parses (no bracket
    mismatch in the authority), `crawl_for_email` terminates normally
    with an `ok` result — a string or null — for every behaviour of the
    network; and a raised page fetch is caught per page: the crawl result
    from a queue headed by the failing URL equals the result from the
    remaining queue. -/
theorem claim_C8 (env : CrawlEnv) (start : String) (m : Nat) :
    (∀ dom, urlNetlocE start = some dom →
      ∃ r, crawl_for_email env start m = .ok r) ∧
    (∀ dom b (u : String) rest vis (f : Found), env.fetchPage u = none →
      (crawlAux env dom b (u :: rest) vis f).1 = (crawlAux env dom b rest vis f).1) := by
  constructor
  · intro dom hd
    exact ⟨crawlAux env dom m [start] [] [], by unfold crawl_for_email; rw [hd]⟩
  · intro dom b u rest vis f hf
    cases b with
    | zero => cases rest <;> simp [crawlAux]
    | succ b =>
      rw [crawlAux]
      split_ifs
      · rfl
      · rfl
      · rw [hf]

/-- Witness for C8: a parseable start URL yields an `ok` result, and a
    failing page at the head of the queue is skipped. -/
theorem claim_C8_witness :
    (∃ r, crawl_for_email cEnvNone "http://x.com" 2 = .ok r) ∧
    (crawlAux cEnvNone "x.com" 1 ["http://a.com"] [] []).1 =
      (crawlAux cEnvNone "x.com" 1 [] [] []).1 :=
  ⟨(claim_C8 cEnvNone "http://x.com" 2).1 "x.com" rfl,
   (claim_C8 cEnvNone "http://x.com" 2).2 "x.com" 1 "http://a.com" [] [] [] rfl⟩

/-! ## Claim C10 — returned emails are lowercase and valid -/

/-- Every character the lowering table emits is itself lowering-fixed. -/
theorem charLower_out_fixed : ∀ c d : Char, d ∈ charLower c → charLower d = [d] := by
  intro c d hd
  have hfin : ∀ q ∈ lowerPairs, ∀ e ∈ q.2, charLower e = [e] := by decide
  unfold charLower at hd
  cases hfind : lowerPairs.find? (fun p => p.1 = c) with
  | none =>
    rw [hfind] at hd
    have : d = c := by simpa using hd
    subst this
    unfold charLower
    rw [hfind]
  | some pr =>
    rw [hfind] at hd
    exact hfin pr (List.mem_of_find?_eq_some hfind) d hd

/-- Membership in a lowered list comes from lowering some original
    character. -/
theorem mem_lowerL : ∀ (l : List Char) (d : Char), d ∈ lowerL l → ∃ c ∈ l, d ∈ charLower c := by
  intro l
  induction l with
  | nil => intro d hd; exact absurd hd (List.not_mem_nil d)
  | cons c t ih =>
    intro d hd
    rcases List.mem_append.mp hd with hc | ht
    · exact ⟨c, List.mem_cons_self c t, hc⟩
    · obtain ⟨a, ha, hda⟩ := ih d ht
      exact ⟨a, List.mem_cons_of_mem c ha, hda⟩

/-- Lowering fixes a list of lowering-fixed characters. -/
theorem lowerL_fixed_of : ∀ l : List Char, (∀ c ∈ l, charLower c = [c]) → lowerL l = l := by
  intro l
  induction l with
  | nil => intro _; rfl
  | cons c t ih =>
    intro h
    show charLower c ++ lowerL t = c :: t
    rw [h c (List.mem_cons_self c t), ih (fun a ha => h a (List.mem_cons_of_mem c ha))]
    rfl

/-- Dropped-while lists are sublists for membership purposes. -/
theorem mem_of_dropWhile {α : Type} (p : α → Bool) :
    ∀ (l : List α) (x : α), x ∈ l.dropWhile p → x ∈ l := by
  intro l
  induction l with
  | nil => intro x hx; exact absurd hx (List.not_mem_nil x)
  | cons a t ih =>
    intro x hx
    by_cases hp : p a = true
    · rw [List.dropWhile_cons_of_pos hp] at hx
      exact List.mem_cons_of_mem a (ih x hx)
    · rw [List.dropWhile_cons_of_neg hp] at hx
      exact hx

/-- `email.lower().strip()` is a fixed point of lowering: what the crawler
    stores is already lowercase. -/
theorem pyLower_fixpoint (s : String) : pyLower (pyStrip (pyLower s)) = pyStrip (pyLower s) := by
  unfold pyLower pyStrip
  congr 1
  apply lowerL_fixed_of
  intro c hc
  have hmem : c ∈ lowerL s.data := by
    have h1 := List.mem_reverse.mp hc
    have h2 := mem_of_dropWhile pySpaceChar _ c h1
    have h3 := List.mem_reverse.mp h2
    exact mem_of_dropWhile pySpaceChar _ c h3
  obtain ⟨a, _, hca⟩ := mem_lowerL s.data c hmem
  exact charLower_out_fixed a c hca

/-- `foundUpdate` keys: every key of the updated map is an old key or the
    inserted one. -/
theorem foundUpdate_inv (P : String → Prop) :
    ∀ (f : Found) (e : String) (s : ℤ),
      (∀ p ∈ f, P p.1) → P e → ∀ p ∈ foundUpdate f e s, P p.1 := by
  intro f
  induction f with
  | nil =>
    intro e s _ he p hp
    have : p = (e, s) := by simpa [foundUpdate] using hp
    exact this ▸ he
  | cons q rest ih =>
    intro e s hf he p hp
    unfold foundUpdate at hp
    by_cases hq : q.1 = e
    · rw [if_pos hq] at hp
      by_cases hs : q.2 < s
      · rw [if_pos hs] at hp
        rcases List.mem_cons.mp hp with hh | ht
        · exact hh ▸ hf q (List.mem_cons_self q rest)
        · exact hf p (List.mem_cons_of_mem q ht)
      · rw [if_neg hs] at hp
        rcases List.mem_cons.mp hp with hh | ht
        · exact hh ▸ hf q (List.mem_cons_self q rest)
        · exact hf p (List.mem_cons_of_mem q ht)
    · rw [if_neg hq] at hp
      rcases List.mem_cons.mp hp with hh | ht
      · exact hh ▸ hf q (List.mem_cons_self q rest)
      · exact ih e s (fun x hx => hf x (List.mem_cons_of_mem q hx)) he p ht

/-- Every key `pageFound` stores was lowered, stripped and passed
    `is_valid_email`. -/
theorem pageFound_inv (urlCur domain : String) :
    ∀ (emails : List String) (f : Found),
      (∀ p ∈ f, is_valid_email p.1 = true ∧ pyLower p.1 = p.1) →
      ∀ p ∈ pageFound urlCur domain emails f,
        is_valid_email p.1 = true ∧ pyLower p.1 = p.1 := by
  intro emails
  induction emails with
  | nil => exact fun f hf => hf
  | cons e0 t ih =>
    intro f hf
    have hcons : pageFound urlCur domain (e0 :: t) f =
        pageFound urlCur domain t
          (if is_valid_email (pyStrip (pyLower e0)) then
            foundUpdate f (pyStrip (pyLower e0))
              (if PRIORITY_KEYWORDS.any (fun k => pyIn k (pyLower urlCur)) then
                score_email (pyStrip (pyLower e0)) domain + 15
              else score_email (pyStrip (pyLower e0)) domain)
          else f) := rfl
    rw [hcons]
    by_cases hv : is_valid_email (pyStrip (pyLower e0)) = true
    · rw [if_pos hv]
      exact ih _ (foundUpdate_inv (fun k => is_valid_email k = true ∧ pyLower k = k)
        f _ _ hf ⟨hv, pyLower_fixpoint e0⟩)
    · rw [if_neg hv]
      exact ih f hf

/-- Fold preservation with membership of the traversed element. -/
theorem foldl_preserve_mem {α β : Type} (g : β → α → β) (P : β → Prop) :
    ∀ (l : List α) (b : β), P b → (∀ b a, a ∈ l → P b → P (g b a)) → P (l.foldl g b) := by
  intro l
  induction l with
  | nil => intro b hb _; exact hb
  | cons a t ih =>
    intro b hb hs
    rw [List.foldl_cons]
    exact ih (g b a) (hs b a (List.mem_cons_self a t) hb)
      (fun b x hx hbx => hs b x (List.mem_cons_of_mem a hx) hbx)

/-- The best entry of the found map is one of its entries. -/
theorem bestOf_mem : ∀ (f : Found) (p : String × ℤ), bestOf f = some p → p ∈ f := by
  intro f
  unfold bestOf
  have h := foldl_preserve_mem
    (fun b p => match b with
      | none => some p
      | some q => if p.2 > q.2 then some p else some q)
    (fun b => ∀ p, b = some p → p ∈ f) f none (by intro p hp; exact absurd hp (by simp))
    (by
      intro b a ha hb p hp
      cases b with
      | none => exact (Option.some_inj.mp hp) ▸ ha
      | some q =>
        dsimp only at hp
        split_ifs at hp
        · exact (Option.some_inj.mp hp) ▸ ha
        · exact hb p hp)
  exact h

/-- Found-map invariant through the crawl loop, and its transfer to the
    returned best email. -/
theorem crawlAux_found (env : CrawlEnv) (dom : String) :
    ∀ (b : Nat) (q vis : List String) (f : Found),
      (∀ p ∈ f, is_valid_email p.1 = true ∧ pyLower p.1 = p.1) →
      (∀ p ∈ (crawlAux env dom b q vis f).2.2.2,
        is_valid_email p.1 = true ∧ pyLower p.1 = p.1) ∧
      (∀ e, (crawlAux env dom b q vis f).1 = some e →
        is_valid_email e = true ∧ pyLower e = e) := by
  intro b
  induction b with
  | zero =>
    intro q vis f hf
    cases q with
    | nil =>
      refine ⟨by simpa [crawlAux] using hf, ?_⟩
      intro e he
      simp only [crawlAux] at he
      obtain ⟨p, hp, hpe⟩ := Option.map_eq_some'.mp he
      exact hpe ▸ hf p (bestOf_mem f p hp)
    | cons u rest =>
      refine ⟨by simpa [crawlAux] using hf, ?_⟩
      intro e he
      simp only [crawlAux] at he
      obtain ⟨p, hp, hpe⟩ := Option.map_eq_some'.mp he
      exact hpe ▸ hf p (bestOf_mem f p hp)
  | succ b ih =>
    intro q
    induction q with
    | nil =>
      intro vis f hf
      refine ⟨by simpa [crawlAux] using hf, ?_⟩
      intro e he
      simp only [crawlAux] at he
      obtain ⟨p, hp, hpe⟩ := Option.map_eq_some'.mp he
      exact hpe ▸ hf p (bestOf_mem f p hp)
    | cons u rest ihq =>
      intro vis f hf
      rw [crawlAux]
      split_ifs with hvis hskip
      · exact ihq vis f hf
      · exact ihq vis f hf
      · cases hfp : env.fetchPage u with
        | none => exact ihq vis f hf
        | some resp =>
          dsimp only
          by_cases hct : htmlContentType resp.contentType
          · rw [if_neg (by simpa using hct)]
            have hf' := pageFound_inv u dom (env.extractEmails resp.text) f hf
            cases hb : bestOf (pageFound u dom (env.extractEmails resp.text) f) with
            | some p =>
              dsimp only
              by_cases hsc : (p.2 ≥ 70)
              · rw [if_pos hsc]
                refine ⟨hf', ?_⟩
                intro e he
                have : p.1 = e := Option.some_inj.mp he
                exact this ▸ hf' p (bestOf_mem _ p hb)
              · rw [if_neg hsc]
                exact ih _ _ _ hf'
            | none =>
              dsimp only
              exact ih _ _ _ hf'
          · rw [if_pos (by simpa using hct)]
            exact ihq vis f hf

/-- C10: every non-null email returned by `crawl_for_email` is a
    lowercase string (a fixed point of lowering) that satisfies
    `is_valid_email`. -/
theorem claim_C10 (env : CrawlEnv) (start : String) (m : Nat)
    (r : Option String × List String × List String × Found) (e : String)
    (h : crawl_for_email env start m = .ok r) (he : r.1 = some e) :
    is_valid_email e = true ∧ pyLower e = e := by
  unfold crawl_for_email at h
  cases hn : urlNetlocE start with
  | none => rw [hn] at h; exact absurd h (by simp)
  | some dom =>
    rw [hn] at h
    have hr : r = crawlAux env dom m [start] [] [] := by
      injection h with h'
      exact h'.symm
    subst hr
    exact (crawlAux_found env dom m [start] [] []
      (by intro p hp; exact absurd hp (List.not_mem_nil p))).2 e he

/-- Witness for C10: a one-page crawl that finds `info@x.com` (scored 90,
    early exit) returns a lowercase, valid address. -/
theorem claim_C10_witness :
    is_valid_email "info@x.com" = true ∧ pyLower "info@x.com" = "info@x.com" :=
  claim_C10 cEnvMail "http://x.com" 1
    (some "info@x.com", [], ["http://x.com"], [("info@x.com", 90)]) "info@x.com"
    (by unfold crawl_for_email; unfold crawlAux; rfl) rfl

/-! ## Claim C1 — the shape of `find_website` results -/

/-- The domain-analysis points are 0, 35 or 40. -/
theorem validateDomainScore_bounds (url : String) :
    0 ≤ (validateDomainScore url).1 ∧ (validateDomainScore url).1 ≤ 40 := by
  unfold validateDomainScore
  dsimp only
  split_ifs <;> norm_num

set_option maxHeartbeats 2000000 in
/-- A computed verdict has confidence in `[0, 100]` and leaves the cache
    well-formed. -/
theorem validateCompute_wf (env : WebEnv) (now : ℚ) (st : VState) (url n c : String)
    (h : WFV st) :
    (0 ≤ (validateCompute env now st url n c).1.confidence ∧
      (validateCompute env now st url n c).1.confidence ≤ 100) ∧
    WFV (validateCompute env now st url n c).2 := by
  have hds := validateDomainScore_bounds url
  unfold validateCompute
  cases hf : env.fetch url with
  | none =>
    dsimp only
    split_ifs with hge
    · refine ⟨⟨?_, ?_⟩, WFV_set _ _ _ _ h ⟨?_, ?_⟩⟩ <;>
        first
          | exact le_min (by linarith [hds.1]) (by norm_num)
          | exact min_le_right _ _
    · exact ⟨⟨le_refl 0, by norm_num⟩, h⟩
  | some resp =>
    have hcs : 0 ≤ vcCityScore c (pyLower resp.text) ∧
        vcCityScore c (pyLower resp.text) ≤ 40 := by
      unfold vcCityScore
      split_ifs <;> norm_num
    have hts : ∀ t, 0 ≤ vcTitleScore t ∧ vcTitleScore t ≤ 20 := by
      intro t
      unfold vcTitleScore
      split_ifs <;> norm_num
    have hks : 0 ≤ vcKwScore (pyLower resp.text) ∧ vcKwScore (pyLower resp.text) ≤ 20 := by
      unfold vcKwScore
      split_ifs <;> norm_num
    have hps : 0 ≤ vcPhoneScore (pyLower resp.text) ∧
        vcPhoneScore (pyLower resp.text) ≤ 15 := by
      unfold vcPhoneScore
      split_ifs <;> norm_num
    dsimp only
    split_ifs <;>
      refine ⟨⟨?_, ?_⟩, WFV_set _ _ _ _ h ⟨?_, ?_⟩⟩ <;>
        dsimp only <;>
        first
          | (norm_num; done)
          | linarith [hds.1, hds.2, hcs.1, hcs.2,
              (hts (vcTitleText env resp.text)).1, (hts (vcTitleText env resp.text)).2,
              hks.1, hks.2, hps.1, hps.2]
          | exact le_min (by linarith [hds.1, hcs.1, (hts (vcTitleText env resp.text)).1,
              hks.1, hps.1]) (by norm_num)
          | exact min_le_right _ _

/-- A validation verdict has confidence in `[0, 100]` and preserves cache
    well-formedness. -/
theorem validate_hotel_content_wf (env : WebEnv) (now : ℚ) (st : VState)
    (url n c : String) (h : WFV st) :
    (0 ≤ (validate_hotel_content env now st url n c).1.confidence ∧
      (validate_hotel_content env now st url n c).1.confidence ≤ 100) ∧
    WFV (validate_hotel_content env now st url n c).2 := by
  unfold validate_hotel_content
  cases hg : get_validation_cache st now url with
  | some v =>
    obtain ⟨t, hrow⟩ := get_some_row st now url v hg
    exact ⟨h _ v t hrow, h⟩
  | none => exact validateCompute_wf env now st url n c h

/-- The token-overlap fold never decreases below its start. -/
theorem csFold_nonneg (domain_name dnc : String) :
    ∀ (l : List String) (init : ℚ), 0 ≤ init →
      0 ≤ l.foldl (csTokenStep domain_name dnc) init := by
  intro l
  induction l with
  | nil => exact fun init h => h
  | cons t ts ih =>
    intro init h
    rw [List.foldl_cons]
    refine ih _ ?_
    unfold csTokenStep
    dsimp only
    split_ifs <;> linarith

/-- `calculate_score` always lies in `[0, 100]`. -/
theorem calculate_score_bounds (env : DiscEnv) (n u t : String) :
    0 ≤ calculate_score env n u t ∧ calculate_score env n u t ≤ 100 := by
  unfold calculate_score
  refine ⟨le_min ?_ (by norm_num), min_le_right _ _⟩
  have h1 : 0 ≤ csOverlap (csNameTokens n) (pyLower (env.tldDomain u))
      (String.mk ((pyLower (env.tldDomain u)).data.filter (fun c => ¬ c.isDigit))) := by
    unfold csOverlap
    split_ifs
    · refine mul_nonneg (div_nonneg (csFold_nonneg _ _ _ 0 le_rfl) ?_) (by norm_num)
      positivity
    · exact le_rfl
  have h2 : 0 ≤ csKeyword (pyLower (env.tldDomain u)) := by
    unfold csKeyword
    split_ifs <;> norm_num
  have h3 : 0 ≤ csTitle n (csNameTokens n) t := by
    unfold csTitle
    dsimp only
    split_ifs <;>
      first
        | norm_num
        | exact le_min (by positivity) (by norm_num)
  have h4 : 0 ≤ csLength (pyLower (env.tldDomain u)) := by
    unfold csLength
    split_ifs <;> norm_num
  linarith

/-- The domain-quality bonus of Strategy A is non-negative. -/
theorem domainQuality_nonneg (n u : String) : 0 ≤ domainQuality n u := by
  unfold domainQuality
  split_ifs <;> norm_num

/-- The two result shapes are mutually exclusive: they disagree on `url`. -/
theorem shape_exclusive (d : FWDict) : FoundShape d → NotFoundShape d → False := by
  rintro ⟨u, s, src, hu, -⟩ ⟨hn, -⟩
  rw [hu] at hn
  exact Option.noConfusion hn

/-- A found dictionary with bounded score and a listed source is a
    `FoundShape`. -/
theorem foundShape_of (u : String) (s : ℚ) (src : String)
    (h0 : 0 ≤ s) (h1 : s ≤ 100) (hsrc : src ∈ SOURCES) :
    FoundShape (foundDict u s src) :=
  ⟨u, s, src, rfl, rfl, h0, h1, rfl, hsrc, rfl⟩

/-- A not-found dictionary with a listed reason is a `NotFoundShape`. -/
theorem notFoundShape_of (r : String) (h : r ∈ REASONS) :
    NotFoundShape (notFoundDict r) :=
  ⟨rfl, rfl, rfl, r, rfl, h⟩

/-- Strategy A's failure reason, when set, is a listed reason code. -/
theorem fwReason1_mem (fl : S1Flags) (r : String) (h : fwReason1 fl = some r) :
    r ∈ REASONS := by
  unfold fwReason1 at h
  split_ifs at h <;>
    first
      | (cases h; decide)
      | exact Option.noConfusion h

/-- Strategy B's failure reason, when set, is a listed reason code. -/
theorem fwReason2_mem (r1 : Option String) (fl : S2Flags)
    (h1 : ∀ s, r1 = some s → s ∈ REASONS) :
    ∀ r, fwReason2 r1 fl = some r → r ∈ REASONS := by
  intro r h
  cases r1 with
  | some s =>
    unfold fwReason2 at h
    cases h
    exact h1 _ rfl
  | none =>
    unfold fwReason2 at h
    dsimp only at h
    split_ifs at h <;>
      first
        | (cases h; decide)
        | exact Option.noConfusion h

/-- The final reason string, defaulted to `no_match`, is a listed reason
    code. -/
theorem fwReason3_getD_mem (r2 : Option String) (fl : S3Flags)
    (h2 : ∀ s, r2 = some s → s ∈ REASONS) :
    (fwReason3 r2 fl).getD "no_match" ∈ REASONS := by
  unfold fwReason3
  split_ifs <;>
    first
      | decide
      | (cases r2 with
          | some s => exact h2 s rfl
          | none => decide)

/-- Strategy C's loop only ever returns a found dictionary of the right
    shape, and threads cache well-formedness. -/
theorem st3Loop_spec (env : DiscEnv) (now : ℚ) (hotel_name city altName : String) :
    ∀ (tlds : List String) (fl : S3Flags) (st : VState), WFV st →
      (∀ d, (st3Loop env now hotel_name city altName tlds fl st).1 = some d →
        FoundShape d) ∧
      WFV (st3Loop env now hotel_name city altName tlds fl st).2.2 := by
  intro tlds
  induction tlds with
  | nil => exact fun fl st h => ⟨fun d hd => Option.noConfusion hd, h⟩
  | cons tld rest ih =>
    intro fl st h
    rw [st3Loop]
    cases hh : env.head ("http://" ++ altName ++ tld) with
    | none =>
      dsimp only
      exact ih _ st h
    | some pr =>
      obtain ⟨status, loc⟩ := pr
      dsimp only
      by_cases hacc : ALLOWED_HEAD_3.contains status = true
      · rw [if_pos hacc]
        by_cases hrel : _is_relevant_domain env hotel_name
            (if status ≠ 200 then loc.getD ("http://" ++ altName ++ tld)
             else "http://" ++ altName ++ tld) = true
        · rw [if_neg (by simpa using hrel)]
          have hv := validate_hotel_content_wf env.toWebEnv now st
            (if status ≠ 200 then loc.getD ("http://" ++ altName ++ tld)
             else "http://" ++ altName ++ tld) hotel_name city h
          by_cases hih : (validate_hotel_content env.toWebEnv now st
              (if status ≠ 200 then loc.getD ("http://" ++ altName ++ tld)
               else "http://" ++ altName ++ tld) hotel_name city).1.is_hotel = true
          · rw [if_pos hih]
            refine ⟨fun d hd => ?_, hv.2⟩
            cases hd
            refine foundShape_of _ _ _ ?_ (min_le_right _ _) (by decide)
            refine le_min (add_nonneg (calculate_score_bounds env hotel_name _ _).1
              (div_nonneg hv.1.1 (by norm_num))) (by norm_num)
          · rw [if_neg hih]
            exact ih _ _ hv.2
        · rw [if_pos (by simpa using hrel)]
          exact ih _ st h
      · rw [if_neg hacc]
        exact ih _ st h

/-- A link kept by `processLink` has a positive score. -/
theorem processLink_pos (env : DiscEnv) (hotel_name : String)
    (link : String × String) (c : String × ℚ)
    (h : processLink env hotel_name link = some c) : 0 ≤ c.2 := by
  unfold processLink at h
  dsimp only at h
  cases hd : decodeHref env link.1 with
  | none =>
    rw [hd] at h
    dsimp only at h
    split_ifs at h <;> exact Option.noConfusion h
  | some href =>
    rw [hd] at h
    dsimp only at h
    split_ifs at h <;>
      first
        | exact Option.noConfusion h
        | (cases h
           exact (calculate_score_bounds env hotel_name href
             (String.mk (link.2.data.take 100))).1)

/-- Insertion preserves membership of the sorted-candidates list. -/
theorem mem_insScoreDesc (x : String × ℚ) :
    ∀ (l : List (String × ℚ)) (c : String × ℚ),
      c ∈ insScoreDesc x l → c = x ∨ c ∈ l := by
  intro l
  induction l with
  | nil =>
    intro c hc
    unfold insScoreDesc at hc
    exact Or.inl (List.mem_singleton.mp hc)
  | cons y ys ih =>
    intro c hc
    unfold insScoreDesc at hc
    split_ifs at hc
    · rcases List.mem_cons.mp hc with h | h
      · exact Or.inl h
      · exact Or.inr h
    · rcases List.mem_cons.mp hc with h | h
      · exact Or.inr (h ▸ List.mem_cons_self y ys)
      · rcases ih c h with h' | h'
        · exact Or.inl h'
        · exact Or.inr (List.mem_cons_of_mem y h')

/-- Sorting by score preserves membership. -/
theorem mem_sortScoreDesc :
    ∀ (l : List (String × ℚ)) (c : String × ℚ),
      c ∈ sortScoreDesc l → c ∈ l := by
  intro l
  induction l with
  | nil => exact fun c hc => absurd hc (by simp [sortScoreDesc])
  | cons x xs ih =>
    intro c hc
    unfold sortScoreDesc at hc
    rw [List.foldr_cons] at hc
    rcases mem_insScoreDesc x _ c hc with h | h
    · exact h ▸ List.mem_cons_self x xs
    · exact List.mem_cons_of_mem x (ih c h)

/-- Strategy B's validation loop only returns found dictionaries of the
    right shape (given non-negative candidate scores) and threads cache
    well-formedness. -/
theorem candLoop_spec (env : DiscEnv) (now : ℚ) (hotel_name city : String) :
    ∀ (cands : List (String × ℚ)) (fl : S2Flags) (st : VState), WFV st →
      (∀ c ∈ cands, 0 ≤ c.2) →
      (∀ d, (candLoop env now hotel_name city cands fl st).1 = some d →
        FoundShape d) ∧
      WFV (candLoop env now hotel_name city cands fl st).2.2 := by
  intro cands
  induction cands with
  | nil => exact fun fl st h _ => ⟨fun d hd => Option.noConfusion hd, h⟩
  | cons c rest ih =>
    intro fl st h hsc
    rw [candLoop]
    by_cases hrel : _is_relevant_domain env hotel_name c.1 = true
    · rw [if_neg (by simpa using hrel)]
      have hv := validate_hotel_content_wf env.toWebEnv now st c.1 hotel_name city h
      by_cases hih : (validate_hotel_content env.toWebEnv now st c.1
          hotel_name city).1.is_hotel = true
      · rw [if_pos hih]
        refine ⟨fun d hd => ?_, hv.2⟩
        cases hd
        refine foundShape_of _ _ _ ?_ (min_le_right _ _) (by decide)
        refine le_min (add_nonneg (hsc c (List.mem_cons_self c rest))
          (div_nonneg hv.1.1 (by norm_num))) (by norm_num)
      · rw [if_neg hih]
        exact ih _ _ hv.2 (fun x hx => hsc x (List.mem_cons_of_mem c hx))
    · rw [if_pos (by simpa using hrel)]
      exact ih _ st h (fun x hx => hsc x (List.mem_cons_of_mem c hx))

/-- Strategy B's query loop only returns found dictionaries of the right
    shape and threads cache well-formedness. -/
theorem st2Loop_spec (env : DiscEnv) (now : ℚ) (hotel_name city : String) :
    ∀ (qs : List String) (fl : S2Flags) (st : VState), WFV st →
      (∀ d, (st2Loop env now hotel_name city qs fl st).1 = some d →
        FoundShape d) ∧
      WFV (st2Loop env now hotel_name city qs fl st).2.2 := by
  intro qs
  induction qs with
  | nil => exact fun fl st h => ⟨fun d hd => Option.noConfusion hd, h⟩
  | cons q rest ih =>
    intro fl st h
    rw [st2Loop]
    cases hsH : env.searchHtml q with
    | none => exact ⟨fun d hd => Option.noConfusion hd, h⟩
    | some html =>
      dsimp only
      by_cases hc : ((env.parseLinks html).take 50).filterMap
          (processLink env hotel_name) = []
      · rw [if_pos hc]
        exact ih _ st h
      · rw [if_neg hc]
        have hscores : ∀ c ∈ sortScoreDesc (((env.parseLinks html).take 50).filterMap
            (processLink env hotel_name)), 0 ≤ c.2 := by
          intro c hcmem
          have hm := mem_sortScoreDesc _ c hcmem
          obtain ⟨a, _, ha⟩ := List.mem_filterMap.mp hm
          exact processLink_pos env hotel_name a c ha
        have hcl := candLoop_spec env now hotel_name city
          (sortScoreDesc (((env.parseLinks html).take 50).filterMap
            (processLink env hotel_name)))
          { fl with cand := true } st h hscores
        cases hcand : candLoop env now hotel_name city
            (sortScoreDesc (((env.parseLinks html).take 50).filterMap
              (processLink env hotel_name)))
            { fl with cand := true } st with
        | mk o p =>
          obtain ⟨fl', st'⟩ := p
          rw [hcand] at hcl
          cases o with
          | some d =>
            dsimp only
            exact ⟨fun d' hd' => by cases hd'; exact hcl.1 d rfl, hcl.2⟩
          | none =>
            dsimp only
            exact ih fl' st' hcl.2

/-- Strategy A's loop: any found dictionary has the right shape, the
    tracked best candidate stays within score bounds, and cache
    well-formedness is threaded. -/
theorem st1Loop_spec (env : DiscEnv) (now : ℚ) (hotel_name city : String) :
    ∀ (urls : List String) (fl : S1Flags) (best : Option (String × ℚ)) (bs : ℚ)
      (st : VState), WFV st →
      (∀ p, best = some p → 0 ≤ p.2 ∧ p.2 ≤ 100) →
      (∀ d, (st1Loop env now hotel_name city urls fl best bs st).1 = some d →
        FoundShape d) ∧
      (∀ p, (st1Loop env now hotel_name city urls fl best bs st).2.2.1 = some p →
        0 ≤ p.2 ∧ p.2 ≤ 100) ∧
      WFV (st1Loop env now hotel_name city urls fl best bs st).2.2.2 := by
  intro urls
  induction urls with
  | nil =>
    intro fl best bs st h hb
    exact ⟨fun d hd => Option.noConfusion hd, hb, h⟩
  | cons u rest ih =>
    intro fl best bs st h hb
    rw [st1Loop]
    cases hh : env.head u with
    | none =>
      dsimp only
      exact ih _ best bs st h hb
    | some pr =>
      obtain ⟨status, loc⟩ := pr
      dsimp only
      by_cases hacc : ALLOWED_HEAD_1.contains status = true
      · rw [if_pos hacc]
        generalize (if REDIRECT_STATUSES.contains status = true then loc.getD u else u) = FU
        by_cases hrel : _is_relevant_domain env hotel_name FU = true
        · rw [if_neg (by simpa using hrel)]
          have hv := validate_hotel_content_wf env.toWebEnv now st FU hotel_name city h
          by_cases hih : (validate_hotel_content env.toWebEnv now st FU
              hotel_name city).1.is_hotel = true
          · rw [if_pos hih]
            have hcalc := calculate_score_bounds env hotel_name FU hotel_name
            generalize hs2 : min (min (calculate_score env hotel_name FU hotel_name +
              (validate_hotel_content env.toWebEnv now st FU
                hotel_name city).1.confidence / 2) 100 +
              domainQuality hotel_name u) 100 = s2
            have hsb : 0 ≤ s2 ∧ s2 ≤ 100 := by
              rw [← hs2]
              constructor
              · refine le_min (add_nonneg ?_ (domainQuality_nonneg _ _)) (by norm_num)
                exact le_min (add_nonneg hcalc.1 (div_nonneg hv.1.1 (by norm_num)))
                  (by norm_num)
              · exact min_le_right _ _
            by_cases hgt : s2 > bs
            · rw [if_pos hgt]
              by_cases hge : s2 ≥ 85
              · rw [if_pos hge]
                refine ⟨fun d hd => ?_, fun p hp => ?_, hv.2⟩
                · cases hd
                  exact foundShape_of _ _ _ hsb.1 hsb.2 (by decide)
                · cases hp
                  exact hsb
              · rw [if_neg hge]
                exact ih _ _ _ _ hv.2 (fun p hp => by cases hp; exact hsb)
            · rw [if_neg hgt]
              by_cases hge : s2 ≥ 85
              · rw [if_pos hge]
                refine ⟨fun d hd => ?_, hb, hv.2⟩
                cases hbq : best with
                | none =>
                  rw [hbq] at hd
                  exact Option.noConfusion hd
                | some p =>
                  rw [hbq] at hd
                  cases hd
                  have hp := hb p hbq
                  exact foundShape_of _ _ _ hp.1 hp.2 (by decide)
              · rw [if_neg hge]
                exact ih _ _ _ _ hv.2 hb
          · rw [if_neg hih]
            exact ih _ _ _ _ hv.2 hb
        · rw [if_pos (by simpa using hrel)]
          exact ih _ _ _ _ h hb
      · rw [if_neg hacc]
        exact ih _ _ _ _ h hb

/-- C1 (counterexample): for a hotel name that is empty after stripping,
    `find_website` returns the bare Python `None` — not a dictionary of
    either claimed shape — so the claimed dichotomy does not hold for
    every input pair. -/
theorem claim_C1_counterexample :
    pyStrip "   " = "" ∧
    (find_website dEnvNone 0 emptyVState "   " "ANTALYA").1 = none :=
  ⟨rfl, rfl⟩

/-- C1 (amended): for every environment, clock, well-formed cache state
    and input pair whose hotel name is nonempty after stripping,
    `find_website` returns a dictionary of exactly one of the two shapes:
    a found result with `url` set, `score ∈ [0,100]` and `source` in
    {domain_guess, ddg_search, alternative_tld}, or a not-found result
    with `url = nil` and a `reason` from the closed reason-code set; never
    both. -/
theorem claim_C1 (env : DiscEnv) (now : ℚ) (st : VState) (hotel_name0 city0 : String)
    (hwf : WFV st) (hne : pyStrip hotel_name0 ≠ "") :
    ∃ d, (find_website env now st hotel_name0 city0).1 = some d ∧
      (FoundShape d ∨ NotFoundShape d) ∧ ¬ (FoundShape d ∧ NotFoundShape d) := by
  unfold find_website
  dsimp only
  rw [if_neg hne]
  have hs1 : (∀ d, (strategy1 env now (pyStrip hotel_name0) (pyLower (pyStrip city0))
        (prepareName (pyStrip hotel_name0)) st).1 = some d → FoundShape d) ∧
      (∀ p, (strategy1 env now (pyStrip hotel_name0) (pyLower (pyStrip city0))
        (prepareName (pyStrip hotel_name0)) st).2.2.1 = some p →
        0 ≤ p.2 ∧ p.2 ≤ 100) ∧
      WFV (strategy1 env now (pyStrip hotel_name0) (pyLower (pyStrip city0))
        (prepareName (pyStrip hotel_name0)) st).2.2.2 := by
    unfold strategy1
    split_ifs
    · exact ⟨(fun d hd => nomatch hd), (fun p hp => nomatch hp), hwf⟩
    · exact st1Loop_spec env now (pyStrip hotel_name0) (pyLower (pyStrip city0)) _ _
        none 0 st hwf (fun p hp => nomatch hp)
  rcases hS1 : strategy1 env now (pyStrip hotel_name0) (pyLower (pyStrip city0))
      (prepareName (pyStrip hotel_name0)) st with ⟨o1, fl1, best1, st1⟩
  rw [hS1] at hs1
  cases o1 with
  | some d =>
    exact ⟨d, rfl, Or.inl (hs1.1 d rfl),
      fun hc => shape_exclusive d hc.1 hc.2⟩
  | none =>
    dsimp only
    cases best1 with
    | some p =>
      have hp := hs1.2.1 p rfl
      exact ⟨foundDict p.1 p.2 "domain_guess", rfl,
        Or.inl (foundShape_of p.1 p.2 "domain_guess" hp.1 hp.2 (by decide)),
        fun hc => shape_exclusive _ hc.1 hc.2⟩
    | none =>
      have hwf1 : WFV st1 := hs1.2.2
      have hq := st2Loop_spec env now (pyStrip hotel_name0) (pyLower (pyStrip city0))
        (if env.ddgOpen = true then []
         else _build_progressive_queries (pyStrip hotel_name0) (pyLower (pyStrip city0)))
        ⟨false, false, false⟩ st1 hwf1
      rcases hS2 : st2Loop env now (pyStrip hotel_name0) (pyLower (pyStrip city0))
          (if env.ddgOpen = true then []
           else _build_progressive_queries (pyStrip hotel_name0)
             (pyLower (pyStrip city0)))
          ⟨false, false, false⟩ st1 with ⟨o2, fl2, st2⟩
      rw [hS2] at hq
      cases o2 with
      | some d =>
        exact ⟨d, rfl, Or.inl (hq.1 d rfl),
          fun hc => shape_exclusive d hc.1 hc.2⟩
      | none =>
        dsimp only
        have hwf2 : WFV st2 := hq.2
        have hs3 : (∀ d, (strategy3 env now (pyStrip hotel_name0)
              (pyLower (pyStrip city0))
              (prepareName (pyStrip hotel_name0)).cleanName st2).1 = some d →
              FoundShape d) ∧
            WFV (strategy3 env now (pyStrip hotel_name0) (pyLower (pyStrip city0))
              (prepareName (pyStrip hotel_name0)).cleanName st2).2.2 := by
          unfold strategy3
          dsimp only
          split_ifs
          · exact ⟨(fun d hd => nomatch hd), hwf2⟩
          · exact st3Loop_spec env now (pyStrip hotel_name0) (pyLower (pyStrip city0))
              (pyStrip (prepareName (pyStrip hotel_name0)).cleanName) _ _ st2 hwf2
        rcases hS3 : strategy3 env now (pyStrip hotel_name0) (pyLower (pyStrip city0))
            (prepareName (pyStrip hotel_name0)).cleanName st2 with ⟨o3, fl3, st3⟩
        rw [hS3] at hs3
        cases o3 with
        | some d =>
          exact ⟨d, rfl, Or.inl (hs3.1 d rfl),
            fun hc => shape_exclusive d hc.1 hc.2⟩
        | none =>
          dsimp only
          refine ⟨notFoundDict ((fwReason3 (fwReason2 (fwReason1 fl1) fl2) fl3).getD
            "no_match"), rfl, Or.inr ?_, fun hc => shape_exclusive _ hc.1 hc.2⟩
          refine notFoundShape_of _ ?_
          exact fwReason3_getD_mem _ fl3
            (fwReason2_mem _ fl2 (fun s hs => fwReason1_mem fl1 s hs))

/-- C1 (witness): the amended shape dichotomy instantiated at a concrete
    nonempty hotel name, empty environment and empty cache. -/
theorem claim_C1_witness :
    WFV emptyVState ∧ pyStrip "GRAND HOTEL ANTALYA" ≠ "" ∧
      ∃ d, (find_website dEnvNone 0 emptyVState "GRAND HOTEL ANTALYA" "ANTALYA").1 =
        some d ∧ (FoundShape d ∨ NotFoundShape d) ∧
        ¬ (FoundShape d ∧ NotFoundShape d) :=
  ⟨fun k v t hkv => Option.noConfusion hkv, by decide,
   claim_C1 dEnvNone 0 emptyVState "GRAND HOTEL ANTALYA" "ANTALYA"
     (fun k v t hkv => Option.noConfusion hkv) (by decide)⟩
